import Mathlib

/-!
Verification of the FIM data-quality pipeline (starcoder2finetune).

Python strings are modelled as `List Char`; Python's `str.strip` family is
modelled over the ASCII whitespace characters that `str.strip()` removes.
Each definition below is a direct translation of the correspondingly named
function in the repository sources (file and line references in doc
comments).  Regular expressions are translated into explicit character-list
scanners; where a Python regex uses `$`, the translation accounts for the
fact that `$` matches at the end of the string or just before a final
newline.
-/

set_option maxHeartbeats 1000000

set_option maxRecDepth 100000

attribute [local semireducible] Rat.add Rat.mul Rat.sub Rat.inv Rat.ofScientific

namespace Pipeline

/-- Whitespace characters recognised by Python's `str.strip()` / `\s` (ASCII). -/
def isPySpace (c : Char) : Bool :=
  c = ' ' || c = '\t' || c = '\n' || c = '\r' || c = '\x0b' || c = '\x0c'

/-- Python `str.lstrip()`. -/
def pyLStrip (s : List Char) : List Char := s.dropWhile isPySpace

/-- Python `str.rstrip()`. -/
def pyRStrip (s : List Char) : List Char := (s.reverse.dropWhile isPySpace).reverse

/-- Python `str.strip()`. -/
def pyStrip (s : List Char) : List Char := pyRStrip (pyLStrip s)

/-- Python `str.rstrip(cs)` for an explicit character set `cs`. -/
def pyRStripSet (cs : List Char) (s : List Char) : List Char :=
  (s.reverse.dropWhile (fun c => cs.contains c)).reverse

/-- Python `line.rstrip('\n')`. -/
def pyRStripNl (s : List Char) : List Char := pyRStripSet ['\n'] s

/-- Python `str.split('\n')`: always returns a non-empty list of lines. -/
def pySplitNl : List Char → List (List Char)
  | [] => [[]]
  | c :: rest =>
    let r := pySplitNl rest
    if c = '\n' then [] :: r else (c :: r.headD []) :: r.tail

/-- Python `'\n'.join(lines)`. -/
def joinNl (ls : List (List Char)) : List Char := List.intercalate ['\n'] ls

/-- The remainder of `s` after the first occurrence of `pat`
(`none` when `pat` does not occur); models the scan of `re.search` for a
pattern starting with the literal `pat`. -/
def afterFirst (pat : List Char) : List Char → Option (List Char)
  | [] => if pat.isPrefixOf ([] : List Char) then some [] else none
  | c :: rest =>
    if pat.isPrefixOf (c :: rest) then some ((c :: rest).drop pat.length)
    else afterFirst pat rest

/-- Python's `pat in s` substring test. -/
def containsSub (pat s : List Char) : Bool := (afterFirst pat s).isSome

/-- The characters of `s` strictly before the first occurrence of `pat`. -/
def takeUntilSub (pat : List Char) : List Char → Option (List Char)
  | [] => if pat.isPrefixOf ([] : List Char) then some [] else none
  | c :: rest =>
    if pat.isPrefixOf (c :: rest) then some []
    else (takeUntilSub pat rest).map (c :: ·)

/-- Python regex `\w` (ASCII). -/
def isWordChar (c : Char) : Bool := c.isAlphanum || c = '_'

/-- `\b` immediately after a word character: the next position is the end of
the string or a non-word character. -/
def wordBoundaryAfter (l : List Char) : Bool :=
  match l with
  | [] => true
  | c :: _ => !isWordChar c

/-- Full match of `^[cls]*$` against `s` (Python `re.match` with a trailing
`$`, which also matches just before a final newline). -/
def pyFullMatchStar (cls : Char → Bool) (s : List Char) : Bool :=
  s.all cls || ((s.getLast? == some '\n') && s.dropLast.all cls)

/-- Full match of `^[cls]+$` against `s`. -/
def pyFullMatchPlus (cls : Char → Bool) (s : List Char) : Bool :=
  (!s.isEmpty && s.all cls) ||
    ((s.getLast? == some '\n') && !s.dropLast.isEmpty && s.dropLast.all cls)

/-! ## src/pipeline/extract_nextline_pairs.py -/

/-- Editor-template boilerplate marker 1 (extract_nextline_pairs.py line 19). -/
def boiler1 : List Char := "| Templates *".data

/-- Editor-template boilerplate marker 2 (extract_nextline_pairs.py line 19). -/
def boiler2 : List Char := "open the template in the editor. */ /* *".data

/-- `is_code_line` (extract_nextline_pairs.py lines 13-21). -/
def isCodeLine (line : List Char) : Bool :=
  let stripped := pyStrip line
  if stripped.isEmpty then false
  else if ("//".data).isPrefixOf stripped || ("/*".data).isPrefixOf stripped ||
      ("*".data).isPrefixOf stripped || ("*/".data).isPrefixOf stripped then false
  else if containsSub boiler1 line || containsSub boiler2 line then false
  else true

/-- The character class of `^[\s{}\[\]();,\.]*$` (extract_nextline_pairs.py
line 34, also used by the Phase-1 filter). -/
def punctClsA (c : Char) : Bool :=
  isPySpace c || c = '\x7b' || c = '\x7d' || c = '[' || c = ']' || c = '(' ||
    c = ')' || c = ';' || c = ',' || c = '.'

/-- Loop body of `has_real_code` (extract_nextline_pairs.py lines 23-43),
carrying the `real_code_count` accumulator. -/
def hasRealCodeAux : List (List Char) → Nat → Bool
  | [], _ => false
  | l :: rest, cnt =>
    let stripped := pyStrip l
    if stripped.isEmpty then hasRealCodeAux rest cnt
    else if ("//".data).isPrefixOf stripped || ("/*".data).isPrefixOf stripped ||
        ("*".data).isPrefixOf stripped || ("*/".data).isPrefixOf stripped then
      hasRealCodeAux rest cnt
    else if pyFullMatchStar punctClsA stripped then hasRealCodeAux rest cnt
    else if ("#".data).isPrefixOf stripped && !(("#include".data).isPrefixOf stripped) then
      hasRealCodeAux rest cnt
    else if cnt + 1 ≥ 1 then true
    else hasRealCodeAux rest (cnt + 1)

/-- `has_real_code` (extract_nextline_pairs.py lines 23-43). -/
def hasRealCode (lines : List (List Char)) : Bool := hasRealCodeAux lines 0

/-- The comment/blank test used by `clean_input_context`
(extract_nextline_pairs.py lines 45-51). -/
def isBlankOrComment (l : List Char) : Bool :=
  (pyStrip l).isEmpty || ("/*".data).isPrefixOf (pyStrip l) ||
    ("//".data).isPrefixOf (pyStrip l) || ("*".data).isPrefixOf (pyStrip l)

/-- The comment test of the filtering pass of `clean_input_context`. -/
def isCommentLine (l : List Char) : Bool :=
  ("/*".data).isPrefixOf (pyStrip l) || ("//".data).isPrefixOf (pyStrip l) ||
    ("*".data).isPrefixOf (pyStrip l)

/-- `clean_input_context` (extract_nextline_pairs.py lines 45-51). -/
def cleanInputContext (ls : List (List Char)) : List (List Char) :=
  (ls.dropWhile isBlankOrComment).filter (fun l => !isCommentLine l)

/-- The `while cleaned and cleaned[-1].strip() == '{'` loop of
`clean_output_lines` (extract_nextline_pairs.py lines 57-58). -/
def dropTrailingOpenBrace (ls : List (List Char)) : List (List Char) :=
  ((ls.reverse).dropWhile (fun l => pyStrip l == ['\x7b'])).reverse

/-- The final unpaired-brace trimming loop of `clean_output_lines`
(extract_nextline_pairs.py lines 66-71), acting on the reversed list. -/
def dropUnpairedAux : List (List Char) → Nat → Nat → List (List Char)
  | [], _, _ => []
  | l :: rest, closes, opens =>
    if opens < closes && pyStrip l == ['\x7d'] then
      dropUnpairedAux rest (closes - 1) opens
    else l :: rest

/-- `clean_output_lines` (extract_nextline_pairs.py lines 53-72). -/
def cleanOutputLines (out : List (List Char)) : List (List Char) :=
  let c1 := out.filter (fun l => !(pyStrip l == ['\x7b']))
  let c2 := dropTrailingOpenBrace c1
  let c3 :=
    if c2.length = 1 && ((pyStrip (c2.headD [])).getLast? == some '\x7b') then
      [pyRStrip (pyRStripSet [' ', '\x7b'] (c2.headD []))]
    else c2
  let c4 := c3.map pyLStrip
  let c5 := c4.filter (fun l => !(pyStrip l == ['\x7d']))
  let opens := (c5.map (fun l => l.count '\x7b')).sum
  let closes := (c5.map (fun l => l.count '\x7d')).sum
  (dropUnpairedAux c5.reverse closes opens).reverse

/-- `re.match(r'#\s*if(def|ndef)?\b', stripped)`
(extract_nextline_pairs.py line 83). -/
def matchIfOpener (s : List Char) : Bool :=
  match s with
  | '#' :: rest =>
    (match rest.dropWhile isPySpace with
     | 'i' :: 'f' :: r2 =>
       (("def".data).isPrefixOf r2 && wordBoundaryAfter (r2.drop 3)) ||
         (("ndef".data).isPrefixOf r2 && wordBoundaryAfter (r2.drop 4)) ||
         wordBoundaryAfter r2
     | _ => false)
  | _ => false

/-- The scanning loop of `has_invalid_preprocessor_structure`
(extract_nextline_pairs.py lines 74-98); the stack of `'if'` entries is
carried as a `List Unit`. -/
def hasInvalidPreAux (stack : List Unit) : List (List Char) → Bool
  | [] => false
  | l :: rest =>
    let stripped := pyStrip l
    if ("#".data).isPrefixOf stripped then
      if matchIfOpener stripped then hasInvalidPreAux (() :: stack) rest
      else if ("#else".data).isPrefixOf stripped then
        if stack.isEmpty then true else hasInvalidPreAux stack rest
      else if ("#elif".data).isPrefixOf stripped then
        if stack.isEmpty then true else hasInvalidPreAux stack rest
      else if ("#endif".data).isPrefixOf stripped then
        if stack.isEmpty then true else hasInvalidPreAux stack.tail rest
      else hasInvalidPreAux stack rest
    else hasInvalidPreAux stack rest

/-- `has_invalid_preprocessor_structure` (extract_nextline_pairs.py
lines 74-98). -/
def hasInvalidPreprocessorStructure (ls : List (List Char)) : Bool :=
  hasInvalidPreAux [] ls

/-- `re.match(r'^\s*[\}\];,]+\s*$', context_lines[-1])`
(extract_nextline_pairs.py lines 130 and 165). -/
def matchClosingPunct (l : List Char) : Bool :=
  let r1 := l.dropWhile isPySpace
  let run := r1.takeWhile (fun c => c = '\x7d' || c = ']' || c = ';' || c = ',')
  let r2 := r1.dropWhile (fun c => c = '\x7d' || c = ']' || c = ';' || c = ',')
  !run.isEmpty && (r2.dropWhile isPySpace).isEmpty

/-- One extracted pair; the source stores the dict
`{'content': f"<fim_prefix>{prefix}<fim_suffix><fim_middle>{middle}"}` and
deduplicates on the tuple `(prefix, middle)`, which are kept as the fields. -/
structure FimPair where
  pref : List Char
  middle : List Char
deriving DecidableEq

/-- The serialized `content` field of a `FimPair`
(extract_nextline_pairs.py line 134). -/
def fimContent (p : FimPair) : List Char :=
  ("<fim_prefix>".data) ++ p.pref ++ ("<fim_suffix><fim_middle>".data) ++ p.middle

/-- The cleaned context window for a candidate whose context ends at raw
line `contextEnd` with context length `cl`
(extract_nextline_pairs.py lines 115-116 and 150-151). -/
def contextWindow (lines : List (List Char)) (contextEnd cl : Nat) : List (List Char) :=
  cleanInputContext ((List.range' (contextEnd + 1 - cl) cl).map
    (fun i => pyRStripNl (lines.getD i [])))

/-- The raw output window for a candidate at code-index position `idx` with
output length `ol` (extract_nextline_pairs.py lines 120-123 and 155-158). -/
def outputWindow (lines : List (List Char)) (codeIdx : List Nat) (idx ol : Nat) :
    List (List Char) :=
  (List.range' 1 ol).filterMap (fun j =>
    if idx + j < codeIdx.length then
      some (pyRStripNl (lines.getD (codeIdx.getD (idx + j) 0) []))
    else none)

/-- The per-candidate body shared by both generation strategies of
`extract_pairs_from_file` (extract_nextline_pairs.py lines 110-140 and
145-175): returns the pair to be emitted, or `none` when any check rejects
the candidate. -/
def candidateRecord (lines : List (List Char)) (codeIdx : List Nat)
    (idx cl ol : Nat) : Option FimPair :=
  let contextEnd := codeIdx.getD idx 0
  if contextEnd + 1 < cl then none
  else
    let ctx := contextWindow lines contextEnd cl
    if hasInvalidPreprocessorStructure ctx then none
    else
      let out := cleanOutputLines (outputWindow lines codeIdx idx ol)
      if ctx.isEmpty || out.isEmpty then none
      else if !hasRealCode out then none
      else if !matchClosingPunct (ctx.getLastD []) &&
          !((ctx ++ out).any (fun l => containsSub boiler1 l || containsSub boiler2 l)) then
        some ⟨joinNl ctx, joinNl out⟩
      else none

/-- `code_indices` (extract_nextline_pairs.py line 105). -/
def codeIndices (lines : List (List Char)) : List Nat :=
  ((lines.enum).filter (fun p => isCodeLine p.2)).map (·.1)

/-- Python `range(start, stop, step)` over naturals. -/
def rangeStep (start stop step : Nat) : List Nat :=
  (List.range ((stop - start + step - 1) / step)).map (fun k => start + step * k)

/-- One step of the deduplicating accumulation of
`extract_pairs_from_file` (extract_nextline_pairs.py lines 135-140 and
170-175): the state is `(pairs, seen_pairs)`. -/
def dedupStep (lines : List (List Char)) (codeIdx : List Nat)
    (st : List FimPair × List (List Char × List Char)) (c : Nat × Nat × Nat) :
    List FimPair × List (List Char × List Char) :=
  match candidateRecord lines codeIdx c.1 c.2.1 c.2.2 with
  | none => st
  | some p =>
    if (p.pref, p.middle) ∈ st.2 then st
    else (st.1 ++ [p], (p.pref, p.middle) :: st.2)

/-- `extract_pairs_from_file` (extract_nextline_pairs.py lines 100-177):
Strategy 1 enumerates output lengths 1 and 2, Strategy 2 slides with step 2
at output length `maxOutput`; a shared `seen_pairs` set deduplicates. -/
def extractPairsFromFile (lines : List (List Char))
    (minContext maxContext maxOutput : Nat) : List FimPair :=
  let codeIdx := codeIndices lines
  let n := codeIdx.length
  let ctxRange := List.range' minContext (maxContext + 1 - minContext)
  let cands1 := [1, 2].flatMap (fun ol =>
    (List.range (n - ol)).flatMap (fun idx => ctxRange.map (fun cl => (idx, cl, ol))))
  let cands2 := (rangeStep 0 (n - maxOutput) 2).flatMap (fun idx =>
    ctxRange.map (fun cl => (idx, cl, maxOutput)))
  ((cands1 ++ cands2).foldl (dedupStep lines codeIdx) ([], [])).1

/-! ## src/apply_middle_content_filter.py -/

/-- `extract_fim_middle` (apply_middle_content_filter.py lines 16-22):
`re.search(r'<fim_middle>(.*?)(?:<|$)', content, re.DOTALL)` — the lazy group
stops at the first `<` after the marker, or at `$` (end of string, or just
before a final newline); the result is then `.strip()`-ed, and `""` is
returned when the marker is absent. -/
def extractFimMiddle (content : List Char) : List Char :=
  match afterFirst ("<fim_middle>".data) content with
  | none => []
  | some r =>
    let t :=
      if r.any (· = '<') then r.takeWhile (fun c => c ≠ '<')
      else if r.getLast? == some '\n' then r.dropLast
      else r
    pyStrip t

/-- The character class of `^[{}\(\)\[\];,\s]*$`
(apply_middle_content_filter.py lines 59 and 86). -/
def symCls2 (c : Char) : Bool :=
  c = '\x7b' || c = '\x7d' || c = '(' || c = ')' || c = '[' || c = ']' ||
    c = ';' || c = ',' || isPySpace c

/-- `re.match(r'^\s*(public|private|protected)\s*:\s*$', content)`
(apply_middle_content_filter.py line 78). -/
def matchAccessSpecLine (content : List Char) : Bool :=
  let r := content.dropWhile isPySpace
  (["public", "private", "protected"].map String.data).any (fun kw =>
    kw.isPrefixOf r &&
      (match (r.drop kw.length).dropWhile isPySpace with
       | ':' :: r2 => (r2.dropWhile isPySpace).isEmpty
       | _ => false))

/-- `should_reject_middle` (apply_middle_content_filter.py lines 64-93). -/
def shouldRejectMiddle (middleContent : List Char) : Bool × String :=
  if middleContent.isEmpty then (true, "empty")
  else
    let content := pyStrip middleContent
    if content.getLast? == some ',' then (true, "incomplete_comma")
    else if matchAccessSpecLine content then (true, "standalone_access_specifier")
    else if content.length ≤ 2 then (true, "too_short")
    else if pyFullMatchStar symCls2 content then (true, "pure_symbols")
    else if ((["::", "->", ".", "("].map String.data).any
        (fun suf => suf.isSuffixOf content)) && content.length < 15 then
      (true, "incomplete_scope")
    else (false, "acceptable")

/-- `re.search`: the pattern matcher `f` is tried at every start position. -/
def searchPred (f : List Char → Bool) (s : List Char) : Bool := s.tails.any f

/-- Anchored match of `\w+\s*\([^)]*\)` (function-call shape). -/
def fnCallAt (s : List Char) : Bool :=
  match s with
  | c :: _ =>
    isWordChar c &&
      (match (s.dropWhile isWordChar).dropWhile isPySpace with
       | '(' :: r2 => r2.any (· = ')')
       | _ => false)
  | [] => false

/-- `re.search(r'\w+\s*\([^)]*\)', s)`. -/
def searchFnCall (s : List Char) : Bool := searchPred fnCallAt s

/-- Anchored match of `kw\s*\(` (e.g. `if\s*\(`). -/
def kwParenAt (kw : String) (s : List Char) : Bool :=
  (kw.data).isPrefixOf s &&
    (match (s.drop kw.data.length).dropWhile isPySpace with
     | '(' :: _ => true
     | _ => false)

/-- `re.search(r'kw\s*\(', s)`. -/
def searchKwParen (kw : String) (s : List Char) : Bool := searchPred (kwParenAt kw) s

/-- Anchored match of `kw\s+` (e.g. `return\s+`). -/
def kwWsAt (kw : String) (s : List Char) : Bool :=
  (kw.data).isPrefixOf s &&
    (match s.drop kw.data.length with
     | c :: _ => isPySpace c
     | [] => false)

/-- `re.search(r'kw\s+', s)`. -/
def searchKwWs (kw : String) (s : List Char) : Bool := searchPred (kwWsAt kw) s

/-- Anchored match of `\w+\s*=\s*` (loose assignment shape,
apply_middle_content_filter.py line 46). -/
def assignLooseAt (s : List Char) : Bool :=
  match s with
  | c :: _ =>
    isWordChar c &&
      (match (s.dropWhile isWordChar).dropWhile isPySpace with
       | '=' :: _ => true
       | _ => false)
  | [] => false

/-- `re.search(r'\w+\s*=\s*', s)`. -/
def searchAssignLoose (s : List Char) : Bool := searchPred assignLooseAt s

/-- The `content.endswith((',', '::', '->', '.', '('))` test
(apply_middle_content_filter.py line 40). -/
def endsProblematic (content : List Char) : Bool :=
  (([",", "::", "->", ".", "("].map String.data).any (fun suf => suf.isSuffixOf content))

/-- `calculate_middle_quality_score` (apply_middle_content_filter.py
lines 24-62); Python floats are modelled as exact rationals. -/
def calculateMiddleQualityScore (middleContent : List Char) : ℚ :=
  if middleContent.isEmpty then 0
  else
    let content := pyStrip middleContent
    let len := content.length
    let s1 : ℚ := if 10 ≤ len ∧ len ≤ 100 then 0.2 else if 5 ≤ len ∧ len ≤ 200 then 0.1 else 0
    let s2 : ℚ := if !endsProblematic content then 0.1 else 0
    let s3 : ℚ :=
      if searchFnCall content || searchAssignLoose content || searchKwWs "return" content ||
          searchKwParen "if" content || searchKwParen "for" content ||
          searchKwParen "while" content then 0.05
      else 0
    let s4 : ℚ := if pyFullMatchStar symCls2 content then -0.3 else 0
    min (max (0.6 + s1 + s2 + s3 + s4) 0) 1

/-! ## src/pipeline/apply_phase3b_improved_filter.py -/

/-- `extract_fim_components` (apply_phase3b_improved_filter.py lines 17-30);
its middle branch is textually identical to `extract_fim_middle`, which is
reused here. -/
def extractFimComponents (content : List Char) : List Char × List Char :=
  let pref :=
    match (afterFirst ("<fim_prefix>".data) content).bind
        (takeUntilSub ("<fim_suffix>".data)) with
    | some p => pyStrip p
    | none => []
  (pref, extractFimMiddle content)

/-- `should_reject_improved` (apply_phase3b_improved_filter.py lines 83-153).
Python floats are modelled as exact rationals; the `float('inf')` branch for
an empty prefix is unreachable (guarded by `missing_components`) and is
modelled as `0`.  The reason strings `ratio_too_large_120/80/60/40` are the
values of Python's `f"ratio_too_large_{int(max_ratio*100)}"` in the four
bands. -/
def shouldRejectImproved (pref middle : List Char) : Bool × String :=
  if pref.isEmpty || middle.isEmpty then (true, "missing_components")
  else
    let pl := pref.length
    let ml := middle.length
    let rq : ℚ := if 0 < pl then (ml : ℚ) / (pl : ℚ) else 0
    if pl < 50 then (true, "prefix_too_short")
    else if 5000 < pl then (true, "prefix_too_long")
    else if ml < 8 then (true, "middle_too_short")
    else if 400 < ml then (true, "middle_too_long")
    else
      let maxRq : ℚ := if pl ≤ 150 then 1.2 else if pl ≤ 300 then 0.8
        else if pl ≤ 500 then 0.6 else 0.4
      let tag : String := if pl ≤ 150 then "ratio_too_large_120"
        else if pl ≤ 300 then "ratio_too_large_80"
        else if pl ≤ 500 then "ratio_too_large_60" else "ratio_too_large_40"
      if maxRq < rq then (true, tag)
      else if rq < 0.01 then (true, "ratio_too_small")
      else if !(pyStrip middle).isEmpty &&
          (match (pyStrip middle).getLast? with
           | some c => c.isAlphanum
           | none => false) &&
          !((pyStrip middle).contains ' ') && (pyStrip middle).length < 15 then
        (true, "incomplete_word")
      else if pl < 80 && 200 < ml then (true, "short_prefix_very_long_middle")
      else if ((pyStrip middle).length : ℚ) < (ml : ℚ) * 0.3 then (true, "mostly_whitespace")
      else (false, "acceptable")

/-- `calculate_length_quality_score` (apply_phase3b_improved_filter.py
lines 32-81). -/
def calculateLengthQualityScore (pref middle : List Char) : ℚ :=
  if pref.isEmpty || middle.isEmpty then 0
  else
    let pl := pref.length
    let ml := middle.length
    let rq : ℚ := if 0 < pl then (ml : ℚ) / (pl : ℚ) else 0
    let s1 : ℚ := if 200 ≤ pl ∧ pl ≤ 1000 then 0.2
      else if 100 ≤ pl ∧ pl ≤ 2000 then 0.1
      else if pl < 50 ∨ 5000 < pl then -0.2 else 0
    let s2 : ℚ := if 20 ≤ ml ∧ ml ≤ 150 then 0.2
      else if 10 ≤ ml ∧ ml ≤ 300 then 0.1
      else if ml < 8 ∨ 400 < ml then -0.2 else 0
    let bands : ℚ × ℚ := if pl ≤ 150 then (0.4, 0.8) else if pl ≤ 300 then (0.3, 0.6)
      else if pl ≤ 500 then (0.25, 0.4) else (0.2, 0.3)
    let s3 : ℚ := if rq ≤ bands.1 then 0.1 else if rq ≤ bands.2 then 0.05 else -0.1
    min (max (0.5 + s1 + s2 + s3) 0) 1

/-! ## src/pipeline/filter_quality_fim_tasks.py -/

/-- The three optional FIM components recovered by `extract_fim_parts`
(filter_quality_fim_tasks.py lines 5-24); a missing key of the Python dict is
`none`. -/
structure FimParts where
  pref? : Option (List Char)
  suff? : Option (List Char)
  middle? : Option (List Char)

/-- `extract_fim_parts` (filter_quality_fim_tasks.py lines 5-24; the same
function is repeated in calculate_comprehensive_quality_scores.py
lines 19-38).  The middle pattern `<fim_middle>(.*?)$` with `re.DOTALL`
captures everything after the first marker, except that `$` lets a single
final newline escape the lazy group. -/
def extractFimParts (content : List Char) : FimParts :=
  { pref? := (afterFirst ("<fim_prefix>".data) content).bind
      (takeUntilSub ("<fim_suffix>".data))
    suff? := (afterFirst ("<fim_suffix>".data) content).bind
      (takeUntilSub ("<fim_middle>".data))
    middle? := (afterFirst ("<fim_middle>".data) content).map
      (fun r => if r.getLast? == some '\n' then r.dropLast else r) }

/-- The character class of `^[\s}]+$` (filter_quality_fim_tasks.py line 43). -/
def braceWsCls (c : Char) : Bool := isPySpace c || c = '\x7d'

/-- The character class of `^[;,]+$` (filter_quality_fim_tasks.py line 48). -/
def semiCommaCls (c : Char) : Bool := c = ';' || c = ','

/-- `re.match(r'^\s*\)\s*[;{]*\s*$', s)` (filter_quality_fim_tasks.py
line 49). -/
def matchCloseParenOnly (s : List Char) : Bool :=
  match s.dropWhile isPySpace with
  | ')' :: r =>
    ((((r.dropWhile isPySpace).dropWhile (fun c => c = ';' || c = '\x7b')).dropWhile
      isPySpace).isEmpty)
  | _ => false

/-- `re.match(r'^\s*else\s*$', s)` (filter_quality_fim_tasks.py line 50). -/
def matchWsElse (s : List Char) : Bool :=
  let r := s.dropWhile isPySpace
  ("else".data).isPrefixOf r && ((r.drop 4).dropWhile isPySpace).isEmpty

/-- `re.match(r'^\s*\+\+\s*$', s)` (filter_quality_fim_tasks.py line 51). -/
def matchWsInc (s : List Char) : Bool :=
  let r := s.dropWhile isPySpace
  ("++".data).isPrefixOf r && ((r.drop 2).dropWhile isPySpace).isEmpty

/-- `re.match(r'^\s*--\s*$', s)` (filter_quality_fim_tasks.py line 52). -/
def matchWsDec (s : List Char) : Bool :=
  let r := s.dropWhile isPySpace
  ("--".data).isPrefixOf r && ((r.drop 2).dropWhile isPySpace).isEmpty

/-- `re.match(r'^\s*namespace\s+\w+\s*$', s)` (filter_quality_fim_tasks.py
line 70). -/
def matchNamespaceOnly (s : List Char) : Bool :=
  let r := s.dropWhile isPySpace
  ("namespace".data).isPrefixOf r &&
    (match r.drop 9 with
     | c :: _ =>
       isPySpace c &&
         (match (r.drop 9).dropWhile isPySpace with
          | d :: _ =>
            isWordChar d &&
              ((((r.drop 9).dropWhile isPySpace).dropWhile isWordChar).dropWhile
                isPySpace).isEmpty
          | [] => false)
     | [] => false)

/-- Anchored match of `kw\s+\w+` (e.g. `class\s+\w+`). -/
def kwWordAt (kw : String) (s : List Char) : Bool :=
  (kw.data).isPrefixOf s &&
    (match s.drop kw.data.length with
     | c :: _ =>
       isPySpace c &&
         (match (s.drop kw.data.length).dropWhile isPySpace with
          | d :: _ => isWordChar d
          | [] => false)
     | [] => false)

/-- `re.search(r'kw\s+\w+', s)`. -/
def searchKwWord (kw : String) (s : List Char) : Bool := searchPred (kwWordAt kw) s

/-- Anchored match of `\w+\s*=\s*\w+` (filter_quality_fim_tasks.py line 78). -/
def assignAt (s : List Char) : Bool :=
  match s with
  | c :: _ =>
    isWordChar c &&
      (match (s.dropWhile isWordChar).dropWhile isPySpace with
       | '=' :: r2 =>
         (match r2.dropWhile isPySpace with
          | d :: _ => isWordChar d
          | [] => false)
       | _ => false)
  | [] => false

/-- `re.search(r'\w+\s*=\s*\w+', s)`. -/
def searchAssign (s : List Char) : Bool := searchPred assignAt s

/-- Anchored match of `#include\s*[<"]` (filter_quality_fim_tasks.py
line 83). -/
def includeOpenAt (s : List Char) : Bool :=
  ("#include".data).isPrefixOf s &&
    (match (s.drop 8).dropWhile isPySpace with
     | c :: _ => c = '<' || c = '"'
     | [] => false)

/-- `re.search(r'#include\s*[<"]', s)`. -/
def searchIncludeOpen (s : List Char) : Bool := searchPred includeOpenAt s

/-- Anchored match of `using\s+namespace` (filter_quality_fim_tasks.py
line 84). -/
def usingNamespaceAt (s : List Char) : Bool :=
  ("using".data).isPrefixOf s &&
    (match s.drop 5 with
     | c :: _ =>
       isPySpace c && ("namespace".data).isPrefixOf ((s.drop 5).dropWhile isPySpace)
     | [] => false)

/-- `re.search(r'using\s+namespace', s)`. -/
def searchUsingNamespace (s : List Char) : Bool := searchPred usingNamespaceAt s

/-- Anchored match of `\w+::\w+` (scope resolution,
filter_quality_fim_tasks.py line 86). -/
def scopeResAt (s : List Char) : Bool :=
  match s with
  | c :: _ =>
    isWordChar c &&
      (match s.dropWhile isWordChar with
       | ':' :: ':' :: r =>
         (match r with
          | d :: _ => isWordChar d
          | [] => false)
       | _ => false)
  | [] => false

/-- `re.search(r'\w+::\w+', s)`. -/
def searchScopeRes (s : List Char) : Bool := searchPred scopeResAt s

/-- The `\b(kw1|kw2|...)\b` word-alternative search (the scan carries whether
the previous character is a word character, so both boundaries are checked). -/
def searchWordAltAux (kws : List (List Char)) (prevWord : Bool) :
    List Char → Bool
  | [] =>
    !prevWord && kws.any (fun kw => kw.isPrefixOf ([] : List Char) &&
      wordBoundaryAfter (([] : List Char).drop kw.length))
  | c :: rest =>
    if !prevWord && kws.any (fun kw => kw.isPrefixOf (c :: rest) &&
        wordBoundaryAfter ((c :: rest).drop kw.length)) then true
    else searchWordAltAux kws (isWordChar c) rest

/-- `re.search(r'\b(kw1|kw2|...)\b', s)`. -/
def searchWordAlt (kws : List String) (s : List Char) : Bool :=
  searchWordAltAux (kws.map String.data) false s

/-- Anchored match of `TB[A-Z]+\b` (the `\b` before `TB` is handled by the
caller's scan). -/
def tbAt (s : List Char) : Bool :=
  match s with
  | 'T' :: 'B' :: r =>
    (match r with
     | c :: _ => c.isUpper
     | [] => false) && wordBoundaryAfter (r.dropWhile Char.isUpper)
  | _ => false

/-- `re.search(r'\bTB[A-Z]+\b', s)` (filter_quality_fim_tasks.py
lines 104 and 173). -/
def searchTBAux (prevWord : Bool) : List Char → Bool
  | [] => false
  | c :: rest =>
    if !prevWord && tbAt (c :: rest) then true
    else searchTBAux (isWordChar c) rest

/-- `re.search(r'\bTB[A-Z]+\b', s)`. -/
def searchTB (s : List Char) : Bool := searchTBAux false s

/-- `is_meaningful_code_completion` (filter_quality_fim_tasks.py
lines 26-107). -/
def isMeaningfulCodeCompletion (middle pref : List Char) : Bool :=
  if middle.isEmpty || (pyStrip middle).isEmpty then false
  else
    let ms := pyStrip middle
    if ms.length < 5 then false
    else if pyFullMatchPlus punctClsA ms then false
    else if pyFullMatchPlus braceWsCls ms || ms == ("return;".data) then false
    else if pyFullMatchPlus semiCommaCls ms then false
    else if matchCloseParenOnly ms then false
    else if matchWsElse ms then false
    else if matchWsInc ms then false
    else if matchWsDec ms then false
    else if ("#".data).isPrefixOf ms &&
        !((["#include", "#define", "#ifndef", "#ifdef"].map String.data).any
          (fun kw => containsSub kw ms)) then false
    else if (pySplitNl middle).all (fun l =>
        (pyStrip l).isEmpty || ("//".data).isPrefixOf (pyStrip l) ||
          ("/*".data).isPrefixOf (pyStrip l) || ("*".data).isPrefixOf (pyStrip l)) then
      false
    else if matchNamespaceOnly ms then false
    else if searchFnCall ms || searchKwWord "class" ms || searchKwWord "struct" ms ||
        searchAssign ms || searchKwParen "if" ms || searchKwParen "for" ms ||
        searchKwParen "while" ms || searchKwWs "return" ms || searchIncludeOpen ms ||
        searchUsingNamespace ms || containsSub ("public:".data) ms ||
        containsSub ("private:".data) ms || containsSub ("protected:".data) ms ||
        searchScopeRes ms then true
    else if searchWordAlt ["int", "double", "float", "char", "bool", "void", "const",
        "static", "virtual", "inline"] ms then true
    else if (["const", "static", "virtual", "override", "public", "private",
        "protected", "class", "struct", "enum", "typedef", "template", "typename",
        "namespace"].map String.data).any (fun kw => containsSub kw ms) then true
    else if searchTB ms || containsSub ("tbricks::".data) ms then true
    else false

/-- Anchored match of `\w+\s*\([^)]*\)\s*(const)?\s*$` (a function signature
ending the line, filter_quality_fim_tasks.py line 131). -/
def funcSigEndAt (s : List Char) : Bool :=
  match s with
  | c :: _ =>
    isWordChar c &&
      (match (s.dropWhile isWordChar).dropWhile isPySpace with
       | '(' :: r2 =>
         if r2.any (· = ')') then
           let after := ((r2.dropWhile (· ≠ ')')).drop 1).dropWhile isPySpace
           after.isEmpty ||
             (("const".data).isPrefixOf after &&
               ((after.drop 5).dropWhile isPySpace).isEmpty)
         else false
       | _ => false)
  | [] => false

/-- Anchored match of `(public|private|protected)\s*:`
(filter_quality_fim_tasks.py line 134). -/
def accessColonAt (s : List Char) : Bool :=
  (["public", "private", "protected"].map String.data).any (fun kw =>
    kw.isPrefixOf s &&
      (match (s.drop kw.length).dropWhile isPySpace with
       | ':' :: _ => true
       | _ => false))

/-- `has_logical_context_flow` (filter_quality_fim_tasks.py lines 109-142):
five continuation rules are tried; the final `return True` makes the default
accepting. -/
def hasLogicalContextFlow (pref middle suff : List Char) : Bool :=
  let prefLines := pySplitNl (pyStrip pref)
  if prefLines.isEmpty then false
  else
    let lastLine := pyStrip (prefLines.getLastD [])
    let ms := pyStrip middle
    if searchPred includeOpenAt lastLine &&
        (containsSub ("#include".data) ms || containsSub ("namespace".data) ms ||
          containsSub ("using".data) ms) then true
    else if searchKwWord "namespace" lastLine &&
        (containsSub ['\x7b'] ms ||
          (["class", "struct", "enum", "void", "int"].map String.data).any
            (fun kw => containsSub kw ms)) then true
    else if (searchKwWord "class" lastLine || searchKwWord "struct" lastLine) &&
        (containsSub ['\x7b'] ms || containsSub [':'] ms ||
          containsSub ("public".data) ms || containsSub ("private".data) ms) then true
    else if searchPred funcSigEndAt lastLine &&
        (containsSub ['\x7b'] ms ||
          (["return", "if", "for", "while"].map String.data).any
            (fun kw => containsSub kw ms)) then true
    else if searchPred accessColonAt lastLine &&
        ((["void", "int", "double", "virtual", "static", "const"].map String.data).any
          (fun kw => containsSub kw ms)) then true
    else true

/-- Anchored match of `else\s*if\s*\(` (filter_quality_fim_tasks.py
line 303). -/
def matchElseIfParen (s : List Char) : Bool :=
  ("else".data).isPrefixOf s &&
    (let r := (s.drop 4).dropWhile isPySpace
     ("if".data).isPrefixOf r &&
       (match (r.drop 2).dropWhile isPySpace with
        | '(' :: _ => true
        | _ => false))

/-- Anchored match of `try\s*$` (filter_quality_fim_tasks.py line 308). -/
def matchTryEnd (s : List Char) : Bool :=
  ("try".data).isPrefixOf s && ((s.drop 3).dropWhile isPySpace).isEmpty

/-- Anchored match of `else\s*$` (filter_quality_fim_tasks.py line 302). -/
def matchElseEnd (s : List Char) : Bool :=
  ("else".data).isPrefixOf s && ((s.drop 4).dropWhile isPySpace).isEmpty

/-- `[^;]*$` after `return\s*` — matches when the rest of the line up to the
`$` position contains no semicolon (filter_quality_fim_tasks.py line 309). -/
def noSemiDollar (r : List Char) : Bool :=
  !(r.contains ';') ||
    ((r.getLast? == some '\n') && !(r.dropLast.contains ';'))

/-- Anchored match of `return\s*[^;]*$`; `\s*` and `[^;]*` both absorb
arbitrary non-semicolon characters. -/
def matchReturnIncomplete (s : List Char) : Bool :=
  ("return".data).isPrefixOf s && noSemiDollar (s.drop 6)

/-- The disjunction of the nine `incomplete_control_patterns`
(filter_quality_fim_tasks.py lines 300-310). -/
def matchIncompleteControl (fl : List Char) : Bool :=
  kwParenAt "if" fl || matchElseEnd fl || matchElseIfParen fl ||
    kwParenAt "for" fl || kwParenAt "while" fl || kwParenAt "switch" fl ||
    kwParenAt "catch" fl || matchTryEnd fl || matchReturnIncomplete fl

/-- The character class `[\w:<>~]` of the function-declaration pattern
(filter_quality_fim_tasks.py line 345). -/
def classAChar (c : Char) : Bool := isWordChar c || c = ':' || c = '<' || c = '>' || c = '~'

/-- `re.match(r'^[\w:<>~]+.*\w+\s*\([^)]*\)', first_line)`
(filter_quality_fim_tasks.py line 345, also
calculate_comprehensive_quality_scores.py line 312): one leading class
character, then `.*` (which cannot cross a newline) up to a
function-call-shaped match. -/
def matchFuncDecl (s : List Char) : Bool :=
  match s with
  | c :: rest =>
    classAChar c &&
      ((List.range ((rest.takeWhile (· ≠ '\n')).length + 1)).any
        (fun i => fnCallAt (rest.drop i)))
  | [] => false

/-- `re.match(r'^[A-Z_]+\(', first_line)` (filter_quality_fim_tasks.py
line 349). -/
def matchUpperCall (s : List Char) : Bool :=
  let run := s.takeWhile (fun c => c.isUpper || c = '_')
  !run.isEmpty &&
    (match s.dropWhile (fun c => c.isUpper || c = '_') with
     | '(' :: _ => true
     | _ => false)

/-- The character class `[\w:<>]` of the variable-declaration pattern
(filter_quality_fim_tasks.py line 360). -/
def classBChar (c : Char) : Bool := isWordChar c || c = ':' || c = '<' || c = '>'

/-- The mandatory tail `[\w:<>]+\s+\w+\s*[=;]` of the variable-declaration
pattern. -/
def varDeclCore (s : List Char) : Bool :=
  let w := s.takeWhile classBChar
  if w.isEmpty then false
  else
    match s.dropWhile classBChar with
    | c :: _ =>
      isPySpace c &&
        (let r2 := (s.dropWhile classBChar).dropWhile isPySpace
         match r2 with
         | d :: _ =>
           isWordChar d &&
             (match (r2.dropWhile isWordChar).dropWhile isPySpace with
              | e :: _ => e = '=' || e = ';'
              | [] => false)
         | [] => false)
    | [] => false

/-- Consume an optional `(kw\s+)?` group, returning the remainder when the
group is taken. -/
def consumeKwWs (kw : String) (s : List Char) : Option (List Char) :=
  if (kw.data).isPrefixOf s then
    match s.drop kw.data.length with
    | c :: _ => if isPySpace c then some ((s.drop kw.data.length).dropWhile isPySpace) else none
    | [] => none
  else none

/-- `re.match(r'^(const\s+)?(static\s+)?(virtual\s+)?[\w:<>]+\s+\w+\s*[=;]',
first_line)` (filter_quality_fim_tasks.py line 360): all eight combinations
of the optional groups are tried. -/
def matchVarDecl (s : List Char) : Bool :=
  let afterConst := s :: (consumeKwWs "const" s).toList
  let afterStatic := afterConst.flatMap (fun t => t :: (consumeKwWs "static" t).toList)
  let afterVirtual := afterStatic.flatMap (fun t => t :: (consumeKwWs "virtual" t).toList)
  afterVirtual.any varDeclCore

/-- `re.match(r'^#\w+', first_line)` (filter_quality_fim_tasks.py line 370). -/
def matchHashWord (s : List Char) : Bool :=
  match s with
  | '#' :: c :: _ => isWordChar c
  | _ => false

/-- `re.match(r'^\w+\s+\w+.*[;{]$', first_line)` (filter_quality_fim_tasks.py
line 371): after resolving `$`, the final character must be `;` or `{`, the
line must open with `\w+\s+\w`, and the `.*` region cannot contain a
newline. -/
def matchCompleteDecl (s : List Char) : Bool :=
  let t := if s.getLast? == some '\n' then s.dropLast else s
  match t.getLast? with
  | some e =>
    (e = ';' || e = '\x7b') &&
      (let w := t.takeWhile isWordChar
       !w.isEmpty &&
         (match t.dropWhile isWordChar with
          | c :: _ =>
            isPySpace c &&
              (let r2 := (t.dropWhile isWordChar).dropWhile isPySpace
               match r2 with
               | d :: _ => isWordChar d && !((r2.drop 1).dropLast.contains '\n')
               | [] => false)
          | [] => false))
  | none => false

/-- `re.match(r'^typedef\s+', first_line)` (filter_quality_fim_tasks.py
line 372). -/
def matchTypedef (s : List Char) : Bool :=
  ("typedef".data).isPrefixOf s &&
    (match s.drop 7 with
     | c :: _ => isPySpace c
     | [] => false)

/-- `re.match(r'^template\s*<', first_line)` (filter_quality_fim_tasks.py
line 373). -/
def matchTemplate (s : List Char) : Bool :=
  ("template".data).isPrefixOf s &&
    (match (s.drop 8).dropWhile isPySpace with
     | '<' :: _ => true
     | _ => false)

/-- `re.match(r'^\w+::\w+', first_line)` (filter_quality_fim_tasks.py
line 374). -/
def matchScopedId (s : List Char) : Bool :=
  let w := s.takeWhile isWordChar
  !w.isEmpty &&
    (match s.dropWhile isWordChar with
     | ':' :: ':' :: r =>
       (match r with
        | d :: _ => isWordChar d
        | [] => false)
     | _ => false)

/-- The pattern chain of `starts_with_complete_code_line` applied to the
first non-blank (stripped) line (filter_quality_fim_tasks.py lines 296-383);
everything after the leading-whitespace check depends only on `fl`. -/
def swcclCore (fl : List Char) : Bool :=
  if matchIncompleteControl fl then false
  else if pyFullMatchStar punctClsA fl then false
  else if pyFullMatchPlus isWordChar fl then false
  else if ("#include".data).isPrefixOf fl &&
      ((".h\"".data).isSuffixOf fl || (".hpp\"".data).isSuffixOf fl ||
        (">".data).isSuffixOf fl || containsSub ("\"".data) fl) then true
  else if ("#pragma".data).isPrefixOf fl then true
  else if ("#ifndef".data).isPrefixOf fl || ("#ifdef".data).isPrefixOf fl ||
      ("#define".data).isPrefixOf fl then true
  else if ("namespace ".data).isPrefixOf fl || ("using ".data).isPrefixOf fl then true
  else if ("class ".data).isPrefixOf fl || ("struct ".data).isPrefixOf fl ||
      ("enum ".data).isPrefixOf fl then true
  else if matchFuncDecl fl then true
  else if matchUpperCall fl || ("auto ".data).isPrefixOf fl ||
      ("const ".data).isPrefixOf fl || ("static ".data).isPrefixOf fl then false
  else if containsSub ("::".data) fl && containsSub ("(".data) fl &&
      !(("#".data).isPrefixOf fl) then false
  else if matchVarDecl fl then false
  else if pyRStripSet [':'] fl ∈ (["public", "private", "protected"].map String.data) then
    false
  else if matchHashWord fl || matchCompleteDecl fl || matchTypedef fl ||
      matchTemplate fl || matchScopedId fl then true
  else false

/-- The number of leading whitespace characters of a line
(`len(line) - len(line.lstrip())`, filter_quality_fim_tasks.py line 292). -/
def leadingWsCount (l : List Char) : Nat := l.length - (pyLStrip l).length

/-- The first-non-blank-line selection of `starts_with_complete_code_line`
(filter_quality_fim_tasks.py lines 278-284). -/
def firstNonBlankStripped (lines : List (List Char)) : Option (List Char) :=
  lines.findSome? (fun l => let s := pyStrip l; if s.isEmpty then none else some s)

/-- `starts_with_complete_code_line` (filter_quality_fim_tasks.py
lines 272-383). -/
def startsWithCompleteCodeLine (pref : List Char) : Bool :=
  if (pyStrip pref).isEmpty then false
  else
    let lines := pySplitNl pref
    match firstNonBlankStripped lines with
    | none => false
    | some fl =>
      if 4 < leadingWsCount (lines.headD []) then false
      else swcclCore fl

/-- `calculate_quality_score` (filter_quality_fim_tasks.py lines 144-181);
Python floats are modelled as exact rationals, and the final result is
`min(score, 1.0)`. -/
def calculateQualityScore (parts : FimParts) : ℚ :=
  let pref := parts.pref?.getD []
  let middle := parts.middle?.getD []
  let suff := parts.suff?.getD []
  if !startsWithCompleteCodeLine pref then 0
  else
    let s1 : ℚ := if isMeaningfulCodeCompletion middle pref then 0.4 else 0
    let s2 : ℚ := if hasLogicalContextFlow pref middle suff then 0.2 else 0
    let ml := (pyStrip middle).length
    let s3 : ℚ := if 10 ≤ ml ∧ ml ≤ 200 then 0.2 else if 5 ≤ ml ∧ ml ≤ 300 then 0.1 else 0
    let s4 : ℚ :=
      if containsSub ("tbricks".data) (middle.map Char.toLower) || searchTB middle then 0.1
      else 0
    let s5 : ℚ :=
      if (["class", "struct", "namespace", "public:", "private:", "virtual",
          "const"].map String.data).any (fun kw => containsSub kw middle) then 0.1
      else 0
    min (s1 + s2 + s3 + s4 + s5) 1

/-! ## src/pipeline/calculate_comprehensive_quality_scores.py -/

/-- Anchored match of `kw\s+` used by the comprehensive
`meaningful_starts` patterns such as `^namespace\s+`
(calculate_comprehensive_quality_scores.py lines 294-305); identical in
shape to `kwWsAt` but taking the keyword as a character list. -/
def litWsAt (kw : List Char) (s : List Char) : Bool :=
  kw.isPrefixOf s &&
    (match s.drop kw.length with
     | c :: _ => isPySpace c
     | [] => false)

/-- `starts_with_complete_code_line` of the Composite Scorer
(calculate_comprehensive_quality_scores.py lines 271-315): the simpler
pattern chain applied to the first non-blank line. -/
def swcclCompCore (fl : List Char) : Bool :=
  if ("#include".data).isPrefixOf fl || ("#pragma".data).isPrefixOf fl ||
      ("#ifndef".data).isPrefixOf fl || ("#ifdef".data).isPrefixOf fl ||
      ("#define".data).isPrefixOf fl || litWsAt ("namespace".data) fl ||
      litWsAt ("using".data) fl || litWsAt ("class".data) fl ||
      litWsAt ("struct".data) fl || litWsAt ("enum".data) fl then true
  else if matchFuncDecl fl then true
  else false

/-- `starts_with_complete_code_line`
(calculate_comprehensive_quality_scores.py lines 271-315). -/
def startsWithCompleteCodeLineComp (pref : List Char) : Bool :=
  if (pyStrip pref).isEmpty then false
  else
    let lines := pySplitNl pref
    match firstNonBlankStripped lines with
    | none => false
    | some fl =>
      if 4 < leadingWsCount (lines.headD []) then false
      else swcclCompCore fl

/-- `is_meaningful_code_completion` of the Composite Scorer
(calculate_comprehensive_quality_scores.py lines 181-234): the same early
rejections as the Phase-1 copy, then only the `meaningful_patterns` loop. -/
def isMeaningfulCodeCompletionComp (middle pref : List Char) : Bool :=
  if middle.isEmpty || (pyStrip middle).isEmpty then false
  else
    let ms := pyStrip middle
    if ms.length < 5 then false
    else if pyFullMatchPlus punctClsA ms then false
    else if pyFullMatchPlus braceWsCls ms || ms == ("return;".data) then false
    else if pyFullMatchPlus semiCommaCls ms then false
    else if matchCloseParenOnly ms then false
    else if matchWsElse ms then false
    else if matchWsInc ms then false
    else if matchWsDec ms then false
    else if searchFnCall ms || searchKwWord "class" ms || searchKwWord "struct" ms ||
        searchAssign ms || searchKwParen "if" ms || searchKwParen "for" ms ||
        searchKwParen "while" ms || searchKwWs "return" ms || searchIncludeOpen ms ||
        searchUsingNamespace ms || containsSub ("public:".data) ms ||
        containsSub ("private:".data) ms || containsSub ("protected:".data) ms ||
        searchScopeRes ms then true
    else false

/-- `has_logical_context_flow` of the Composite Scorer
(calculate_comprehensive_quality_scores.py lines 236-269); the body is
textually identical to the Phase-1 copy. -/
def hasLogicalContextFlowComp (pref middle suff : List Char) : Bool :=
  hasLogicalContextFlow pref middle suff

/-- `calculate_phase1_score` (calculate_comprehensive_quality_scores.py
lines 40-75). -/
def calculatePhase1Score (parts : FimParts) : ℚ :=
  let pref := parts.pref?.getD []
  let middle := parts.middle?.getD []
  let suff := parts.suff?.getD []
  if !startsWithCompleteCodeLineComp pref then 0
  else
    let s1 : ℚ := if isMeaningfulCodeCompletionComp middle pref then 0.4 else 0
    let s2 : ℚ := if hasLogicalContextFlowComp pref middle suff then 0.2 else 0
    let ml := (pyStrip middle).length
    let s3 : ℚ := if 10 ≤ ml ∧ ml ≤ 200 then 0.2 else if 5 ≤ ml ∧ ml ≤ 300 then 0.1 else 0
    let s4 : ℚ :=
      if containsSub ("tbricks".data) (middle.map Char.toLower) || searchTB middle then 0.1
      else 0
    let s5 : ℚ :=
      if (["class", "struct", "namespace", "public:", "private:", "virtual",
          "const"].map String.data).any (fun kw => containsSub kw middle) then 0.1
      else 0
    min (s1 + s2 + s3 + s4 + s5) 1

/-- `calculate_phase2_score` (calculate_comprehensive_quality_scores.py
lines 77-115); the body is textually identical to
`calculate_middle_quality_score` of the Phase-2 filter. -/
def calculatePhase2Score (middle : List Char) : ℚ :=
  calculateMiddleQualityScore middle

/-- `calculate_phase3_score` (calculate_comprehensive_quality_scores.py
lines 117-165); the body is textually identical to
`calculate_length_quality_score` of the Phase-3 filter. -/
def calculatePhase3Score (pref middle : List Char) : ℚ :=
  calculateLengthQualityScore pref middle

/-- `calculate_composite_score` (calculate_comprehensive_quality_scores.py
lines 167-178). -/
def calculateCompositeScore (p1 p2 p3 : ℚ) : ℚ :=
  min (max (0.5 * p1 + 0.3 * p2 + 0.2 * p3) 0) 1

/-! ## Per-record phase processing

A record is a JSON object with a `content` field plus the quality
annotations stamped by each phase; the annotation fields of later phases are
optional.  Each phase reads only `content` and, on acceptance, adds its own
annotation fields (filter_quality_fim_tasks.py lines 197-221,
apply_middle_content_filter.py lines 132-150,
apply_phase3b_improved_filter.py lines 206-229). -/

/-- A pipeline record: the immutable `content` plus optional annotations. -/
structure Task where
  content : List Char
  qualityScore : Option ℚ := none
  qualityPhase : Option String := none
  qualityPhase2 : Option String := none
  qualityMiddleReason : Option String := none
  qualityMiddleScore : Option ℚ := none
  qualityPhase3b : Option String := none
  qualityLengthReason : Option String := none
  qualityLengthScore : Option ℚ := none
  qualityPrefLength : Option Nat := none
  qualityMiddleLength : Option Nat := none
  qualityRatQ : Option ℚ := none

/-- The Phase-1 acceptance decision (filter_quality_fim_tasks.py
lines 201-214): both `prefix` and `middle` must be extractable and the
quality score must reach the threshold. -/
def phase1Accepts (threshold : ℚ) (t : Task) : Bool :=
  let parts := extractFimParts t.content
  match parts.pref?, parts.middle? with
  | some _, some _ => decide (threshold ≤ calculateQualityScore parts)
  | _, _ => false

/-- The Phase-1 annotation of an accepted record
(filter_quality_fim_tasks.py lines 216-217). -/
def phase1Annotate (t : Task) : Task :=
  { t with
    qualityScore := some (calculateQualityScore (extractFimParts t.content))
    qualityPhase := some "phase1_context_quality" }

/-- The Phase-2 acceptance decision (apply_middle_content_filter.py
lines 137-140). -/
def phase2Accepts (t : Task) : Bool :=
  !(shouldRejectMiddle (extractFimMiddle t.content)).1

/-- The Phase-2 annotation of an accepted record
(apply_middle_content_filter.py lines 146-149). -/
def phase2Annotate (t : Task) : Task :=
  { t with
    qualityPhase2 := some "passed_middle_content_filter"
    qualityMiddleReason := some (shouldRejectMiddle (extractFimMiddle t.content)).2
    qualityMiddleScore := some (calculateMiddleQualityScore (extractFimMiddle t.content)) }

/-- The Phase-3 acceptance decision (apply_phase3b_improved_filter.py
lines 211-214). -/
def phase3Accepts (t : Task) : Bool :=
  !(shouldRejectImproved (extractFimComponents t.content).1
    (extractFimComponents t.content).2).1

/-- The Phase-3 annotation of an accepted record
(apply_phase3b_improved_filter.py lines 221-227). -/
def phase3Annotate (t : Task) : Task :=
  let p := (extractFimComponents t.content).1
  let m := (extractFimComponents t.content).2
  { t with
    qualityPhase3b := some "passed_length_based_filter"
    qualityLengthReason := some (shouldRejectImproved p m).2
    qualityLengthScore := some (calculateLengthQualityScore p m)
    qualityPrefLength := some p.length
    qualityMiddleLength := some m.length
    qualityRatQ := some (if 0 < p.length then (m.length : ℚ) / (p.length : ℚ) else 0) }

/-! ## Helper lemmas -/

/-- A `^[cls]*$` match fails when the first character is outside the class
and is not a newline. -/
lemma pyFullMatchStar_false_head {cls : Char → Bool} {c : Char} (t : List Char)
    (h : cls c = false) (hc : c ≠ '\n') : pyFullMatchStar cls (c :: t) = false := by
  cases t with
  | nil => simp [pyFullMatchStar, h, hc]
  | cons b t' => simp [pyFullMatchStar, h, List.dropLast_cons₂]

/-- A `^[cls]+$` match fails when the first character is outside the class
and is not a newline. -/
lemma pyFullMatchPlus_false_head {cls : Char → Bool} {c : Char} (t : List Char)
    (h : cls c = false) (hc : c ≠ '\n') : pyFullMatchPlus cls (c :: t) = false := by
  cases t with
  | nil => simp [pyFullMatchPlus, h, hc]
  | cons b t' => simp [pyFullMatchPlus, h, List.dropLast_cons₂]

/-- A `^[cls]+$` match on `lit ++ t` fails when `lit` already contains a
character outside the class and does not end in a newline. -/
lemma pyFullMatchPlus_false_append {cls : Char → Bool} {lit : List Char}
    (t : List Char) (h1 : lit.all cls = false) (h2 : lit.getLast? ≠ some '\n') :
    pyFullMatchPlus cls (lit ++ t) = false := by
  cases t with
  | nil =>
    rw [List.append_nil]
    simp [pyFullMatchPlus, h1, h2]
  | cons c t' =>
    simp [pyFullMatchPlus, List.all_append, h1, List.dropLast_append_cons]

/-! ## C1: code-line classification of preprocessor lines -/

/-- C1 counterexample: the claim says a stripped line beginning `#` but not
`#include` is classified as non-code and never enters the CodeLineIndex; but
`is_code_line "#pragma once"` is `true` and the line's index `0` appears in
the CodeLineIndex of a file consisting of that line. -/
theorem c1_counterexample :
    isCodeLine ("#pragma once".data) = true ∧
      codeIndices [("#pragma once".data)] = [0] := by
  constructor <;> decide

/-- C1 (amended): the Code-Line Classifier `is_code_line` does NOT exclude
preprocessor lines — any line whose stripped form begins with `#` (and which
is free of the two editor-template boilerplate markers) is classified as
code and its index enters the CodeLineIndex; the exclusion of
non-`#include` preprocessor lines applies only to the stricter
`has_real_code` check used on output windows. -/
theorem c1_amended : ∀ (line t : List Char),
    pyStrip line = '#' :: t →
    containsSub boiler1 line = false → containsSub boiler2 line = false →
    isCodeLine line = true ∧ codeIndices [line] = [0] ∧
      (("include".data).isPrefixOf t = false → hasRealCode [line] = false) := by
  intro line t h hb1 hb2
  have hcode : isCodeLine line = true := by
    have e1 : (("//".data).isPrefixOf ('#' :: t)) = false := rfl
    have e2 : (("/*".data).isPrefixOf ('#' :: t)) = false := rfl
    have e3 : (("*".data).isPrefixOf ('#' :: t)) = false := rfl
    have e4 : (("*/".data).isPrefixOf ('#' :: t)) = false := rfl
    simp [isCodeLine, h, e1, e2, e3, e4, hb1, hb2]
  refine ⟨hcode, ?_, ?_⟩
  · simp [codeIndices, List.enum, hcode]
  · intro hinc
    have e1 : (("//".data).isPrefixOf ('#' :: t)) = false := rfl
    have e2 : (("/*".data).isPrefixOf ('#' :: t)) = false := rfl
    have e3 : (("*".data).isPrefixOf ('#' :: t)) = false := rfl
    have e4 : (("*/".data).isPrefixOf ('#' :: t)) = false := rfl
    have e5 : pyFullMatchStar punctClsA ('#' :: t) = false :=
      pyFullMatchStar_false_head t (by decide) (by decide)
    have e6 : (("#".data).isPrefixOf ('#' :: t)) = true := by
      simp [List.isPrefixOf]
    have e7 : (("#include".data).isPrefixOf ('#' :: t)) = false := by
      simpa [List.isPrefixOf] using hinc
    simp [hasRealCode, hasRealCodeAux, h, e1, e2, e3, e4, e5, e6, e7]

/-- C1 amended witness at the concrete line `#pragma once`. -/
theorem c1_amended_witness :
    isCodeLine ("#pragma once".data) = true ∧
      codeIndices [("#pragma once".data)] = [0] ∧
      hasRealCode [("#pragma once".data)] = false := by
  have h := c1_amended ("#pragma once".data) ("pragma once".data)
    (by decide) (by decide) (by decide)
  exact ⟨h.1, h.2.1, h.2.2 (by decide)⟩

/-- `lstrip` keeps a suffix of the string. -/
lemma pyLStrip_suffix (s : List Char) : pyLStrip s <:+ s :=
  List.dropWhile_suffix _

/-- `rstrip` keeps a prefix of the string. -/
lemma pyRStrip_pref (s : List Char) : pyRStrip s <+: s := by
  have h : s.reverse.dropWhile isPySpace <:+ s.reverse := List.dropWhile_suffix isPySpace
  have := List.reverse_prefix.mpr h
  simpa [pyRStrip] using this

/-- `strip` keeps an infix of the string. -/
lemma pyStrip_sub (s : List Char) : pyStrip s <:+: s :=
  ((pyRStrip_pref (pyLStrip s)).isInfix).trans ((pyLStrip_suffix s).isInfix)

/-- Stripping never lengthens a string. -/
lemma pyStrip_length_le (s : List Char) : (pyStrip s).length ≤ s.length :=
  (pyStrip_sub s).length_le

/-- A string ending in a non-whitespace character keeps that last character
after stripping. -/
lemma getLast?_pyStrip_of_not_space {m : List Char} {c : Char}
    (h : m.getLast? = some c) (hc : isPySpace c = false) :
    (pyStrip m).getLast? = some c := by
  have h1 : (pyLStrip m).getLast? = some c := by
    obtain ⟨pre, hpre⟩ := pyLStrip_suffix m
    cases hL : pyLStrip m with
    | nil =>
      have hall : ∀ x ∈ m, isPySpace x := List.dropWhile_eq_nil_iff.mp hL
      have hcm : c ∈ m := List.mem_of_mem_getLast? (by simp [h])
      rw [hall c hcm] at hc
      cases hc
    | cons d ds =>
      rw [hL] at hpre
      rw [← hpre, List.getLast?_append] at h
      rcases hlast : (d :: ds).getLast? with _ | e
      · simp at hlast
      · rw [hlast] at h
        simp only [Option.or_some] at h
        exact h
  have h2 : pyRStrip (pyLStrip m) = pyLStrip m := by
    unfold pyRStrip
    have hh : (pyLStrip m).reverse.head? = some c := by
      rw [List.head?_reverse]; exact h1
    cases hR : (pyLStrip m).reverse with
    | nil => rw [hR] at hh; cases hh
    | cons d ds =>
      rw [hR] at hh
      have hd : d = c := by simpa using hh
      have hdw : List.dropWhile isPySpace (d :: ds) = d :: ds := by
        rw [List.dropWhile_cons, hd, hc]
        simp
      rw [hdw, ← hR, List.reverse_reverse]
  unfold pyStrip
  rw [h2]
  exact h1

/-- When the class contains the newline character, a `^[cls]*$` match means
every character of the string is in the class. -/
lemma star_all_of_nlclass {cls : Char → Bool} (hnl : cls '\n' = true)
    {s : List Char} (h : pyFullMatchStar cls s = true) : s.all cls = true := by
  have h' : s.all cls = true ∨
      ((s.getLast? == some '\n') && s.dropLast.all cls) = true := by
    simpa [pyFullMatchStar, Bool.or_eq_true_iff] using h
  rcases h' with h1 | h2
  · exact h1
  · rw [Bool.and_eq_true] at h2
    obtain ⟨hlast, hall⟩ := h2
    have hmem : '\n' ∈ s.getLast? := by
      simp only [beq_iff_eq] at hlast
      rw [hlast]; rfl
    have hs := List.dropLast_append_getLast? '\n' hmem
    rw [← hs, List.all_append, hall]
    simp [hnl]

/-- A `^[cls]*$` match survives stripping when the class contains `'\n'`
(and hence all of `\s` for the classes used here). -/
lemma star_pyStrip {cls : Char → Bool} (hnl : cls '\n' = true) {m : List Char}
    (h : pyFullMatchStar cls m = true) : pyFullMatchStar cls (pyStrip m) = true := by
  have hall := star_all_of_nlclass hnl h
  have hsub : (pyStrip m).all cls = true := by
    rw [List.all_eq_true] at hall ⊢
    intro x hx
    exact hall x ((pyStrip_sub m).subset hx)
  simp [pyFullMatchStar, hsub]

/-! ## C5: Phase-2 survivor properties -/

/-- C5: every record surviving the Phase-2 Middle-Content Filter has a
middle that does not end with a comma, is not a bare access-specifier line,
has length greater than 2, and is not purely symbolic (both for the stripped
content the filter inspects and for the raw middle); and the middle `","` is
rejected with reason `incomplete_comma`. -/
theorem c5_phase2_survivors :
    (∀ middle : List Char,
      shouldRejectMiddle middle = (false, "acceptable") →
      (pyStrip middle).getLast? ≠ some ',' ∧ middle.getLast? ≠ some ',' ∧
      matchAccessSpecLine (pyStrip middle) = false ∧
      2 < (pyStrip middle).length ∧ 2 < middle.length ∧
      pyFullMatchStar symCls2 (pyStrip middle) = false ∧
      pyFullMatchStar symCls2 middle = false) ∧
    shouldRejectMiddle (",".data) = (true, "incomplete_comma") := by
  constructor
  · intro middle h
    simp only [shouldRejectMiddle] at h
    split_ifs at h with h1 h2 h3 h4 h5 h6 <;>
      first
      | (exfalso; simp at h; done)
      | skip
    have hcomma : (pyStrip middle).getLast? ≠ some ',' := by
      intro hx
      exact h2 (by simp [hx])
    refine ⟨hcomma, ?_, by simpa using h3, by omega, ?_, by simpa using h5, ?_⟩
    · intro hx
      exact hcomma (getLast?_pyStrip_of_not_space hx (by decide))
    · have := pyStrip_length_le middle
      omega
    · by_contra hx
      rw [Bool.not_eq_false] at hx
      have := @star_pyStrip symCls2 (by decide) _ hx
      simp [this] at h5
  · decide

/-- C5 witness: the middle `"return a + b;"` is accepted by Phase 2 and
satisfies the survivor properties. -/
theorem c5_witness :
    (pyStrip ("return a + b;".data)).getLast? ≠ some ',' ∧
    ("return a + b;".data).getLast? ≠ some ',' ∧
    matchAccessSpecLine (pyStrip ("return a + b;".data)) = false ∧
    2 < (pyStrip ("return a + b;".data)).length ∧
    2 < ("return a + b;".data).length ∧
    pyFullMatchStar symCls2 (pyStrip ("return a + b;".data)) = false ∧
    pyFullMatchStar symCls2 ("return a + b;".data) = false :=
  c5_phase2_survivors.1 ("return a + b;".data) (by decide)

/-! ## C6: Phase-3 length/ratio bounds -/

/-- C6 counterexample: the claim says a record with a 1000-character prefix
and a 900-character middle is rejected with a `ratio_too_large_*` reason; in
fact the middle-length upper bound (400) is checked before the ratio, so the
record is rejected with reason `middle_too_long`. -/
theorem c6_counterexample :
    shouldRejectImproved (List.replicate 1000 'a') (List.replicate 900 'b') =
      (true, "middle_too_long") ∧
    ("ratio_too_large".data).isPrefixOf ("middle_too_long".data) = false := by
  constructor <;> decide

/-- C6 (amended): every record surviving the Phase-3 filter satisfies
`8 ≤ len(middle) ≤ 400`, `50 ≤ len(prefix) ≤ 5000`, and
`len(middle)/len(prefix)` at or below the adaptive ceiling (1.2 for prefix
length ≤ 150, 0.8 for ≤ 300, 0.6 for ≤ 500, 0.4 otherwise); a record with a
1000-character prefix and 900-character middle is rejected with reason
`middle_too_long` (the middle-length bound is tested before the ratio), and
a 999-character prefix with a 400-character middle (ratio ≈ 0.4004) is
rejected with reason `ratio_too_large_40`. -/
theorem c6_phase3_survivors :
    (∀ pref middle : List Char,
      shouldRejectImproved pref middle = (false, "acceptable") →
      50 ≤ pref.length ∧ pref.length ≤ 5000 ∧
      8 ≤ middle.length ∧ middle.length ≤ 400 ∧
      (middle.length : ℚ) / (pref.length : ℚ) ≤
        (if pref.length ≤ 150 then 1.2 else if pref.length ≤ 300 then 0.8
         else if pref.length ≤ 500 then 0.6 else 0.4)) ∧
    shouldRejectImproved (List.replicate 1000 'a') (List.replicate 900 'b') =
      (true, "middle_too_long") ∧
    shouldRejectImproved (List.replicate 999 'a') (List.replicate 400 'b') =
      (true, "ratio_too_large_40") := by
  refine ⟨?_, by decide, by decide⟩
  intro pref middle h
  simp only [shouldRejectImproved] at h
  by_cases hemp : (pref.isEmpty || middle.isEmpty) = true
  · rw [if_pos hemp] at h
    simp at h
  · rw [if_neg hemp] at h
    have hpl : 0 < pref.length := by
      simp only [Bool.or_eq_true, not_or] at hemp
      rcases hemp with ⟨hp, _⟩
      cases pref
      · simp at hp
      · simp
    rw [if_pos hpl] at h
    split_ifs at h <;>
      first
      | (exfalso; simp at h; done)
      | skip
    all_goals refine ⟨by omega, by omega, by omega, by omega, ?_⟩
    all_goals split_ifs <;> first | omega | linarith

/-- C6 witness: a 63-character prefix with the 13-character middle
`"return a + b;"` is accepted and satisfies the amended bounds. -/
theorem c6_witness :
    50 ≤ ("int foo(int a, int b) \x7b\nint c = a + b;\nint d = a - b;\nreturn c;".data).length ∧
    ("int foo(int a, int b) \x7b\nint c = a + b;\nint d = a - b;\nreturn c;".data).length ≤ 5000 ∧
    8 ≤ ("return a + b;".data).length ∧ ("return a + b;".data).length ≤ 400 ∧
    ((("return a + b;".data).length : ℚ) /
        ((("int foo(int a, int b) \x7b\nint c = a + b;\nint d = a - b;\nreturn c;".data)).length : ℚ)) ≤
      (if ("int foo(int a, int b) \x7b\nint c = a + b;\nint d = a - b;\nreturn c;".data).length ≤ 150
       then 1.2
       else if ("int foo(int a, int b) \x7b\nint c = a + b;\nint d = a - b;\nreturn c;".data).length ≤ 300
       then 0.8
       else if ("int foo(int a, int b) \x7b\nint c = a + b;\nint d = a - b;\nreturn c;".data).length ≤ 500
       then 0.6 else 0.4) :=
  c6_phase3_survivors.1
    ("int foo(int a, int b) \x7b\nint c = a + b;\nint d = a - b;\nreturn c;".data)
    ("return a + b;".data) (by decide)

/-! ## C7: all quality scores lie in [0, 1] -/

/-- C7: every quality score produced by the pipeline — the Phase-1 context
score, the Phase-2 middle score, the Phase-3 length score (both the filter
copies and the Composite Scorer's recomputations), and the composite score,
which is the clamped weighted sum `0.5×phase1 + 0.3×phase2 + 0.2×phase3` —
lies in the interval [0, 1]. -/
theorem c7_scores_in_unit_interval :
    (∀ parts : FimParts,
      0 ≤ calculateQualityScore parts ∧ calculateQualityScore parts ≤ 1) ∧
    (∀ m : List Char,
      0 ≤ calculateMiddleQualityScore m ∧ calculateMiddleQualityScore m ≤ 1) ∧
    (∀ p m : List Char,
      0 ≤ calculateLengthQualityScore p m ∧ calculateLengthQualityScore p m ≤ 1) ∧
    (∀ parts : FimParts,
      0 ≤ calculatePhase1Score parts ∧ calculatePhase1Score parts ≤ 1) ∧
    (∀ m : List Char,
      0 ≤ calculatePhase2Score m ∧ calculatePhase2Score m ≤ 1) ∧
    (∀ p m : List Char,
      0 ≤ calculatePhase3Score p m ∧ calculatePhase3Score p m ≤ 1) ∧
    (∀ q1 q2 q3 : ℚ,
      0 ≤ calculateCompositeScore q1 q2 q3 ∧ calculateCompositeScore q1 q2 q3 ≤ 1 ∧
        calculateCompositeScore q1 q2 q3 =
          min (max (0.5 * q1 + 0.3 * q2 + 0.2 * q3) 0) 1) := by
  have clamp : ∀ x : ℚ, 0 ≤ min (max x 0) 1 ∧ min (max x 0) 1 ≤ 1 := fun x =>
    ⟨le_min (le_max_right x 0) (by norm_num), min_le_right _ _⟩
  refine ⟨?_, ?_, ?_, ?_, ?_, ?_, ?_⟩
  · intro parts
    simp only [calculateQualityScore]
    split_ifs <;> constructor <;> decide
  · intro m
    simp only [calculateMiddleQualityScore]
    by_cases h : m.isEmpty = true
    · rw [if_pos h]
      norm_num
    · rw [if_neg h]
      exact clamp _
  · intro p m
    simp only [calculateLengthQualityScore]
    by_cases h : (p.isEmpty || m.isEmpty) = true
    · rw [if_pos h]
      norm_num
    · rw [if_neg h]
      exact clamp _
  · intro parts
    simp only [calculatePhase1Score]
    split_ifs <;> constructor <;> decide
  · intro m
    simp only [calculatePhase2Score, calculateMiddleQualityScore]
    by_cases h : m.isEmpty = true
    · rw [if_pos h]
      norm_num
    · rw [if_neg h]
      exact clamp _
  · intro p m
    simp only [calculatePhase3Score, calculateLengthQualityScore]
    by_cases h : (p.isEmpty || m.isEmpty) = true
    · rw [if_pos h]
      norm_num
    · rw [if_neg h]
      exact clamp _
  · intro q1 q2 q3
    exact ⟨(clamp _).1, (clamp _).2, rfl⟩

/-! ## C8: per-phase idempotence -/

/-- C8: each phase filter is idempotent on its own output — a record
accepted by Phase 1, 2, or 3 and rewritten with that phase's annotation
fields is accepted again by the same phase, because every phase decision
reads only the `content` field, which annotation leaves unchanged. -/
theorem c8_phase_idempotence :
    (∀ (threshold : ℚ) (t : Task),
      phase1Accepts threshold t = true →
        phase1Accepts threshold (phase1Annotate t) = true) ∧
    (∀ t : Task, phase2Accepts t = true → phase2Accepts (phase2Annotate t) = true) ∧
    (∀ t : Task, phase3Accepts t = true → phase3Accepts (phase3Annotate t) = true) := by
  refine ⟨?_, ?_, ?_⟩
  · intro threshold t h
    exact h
  · intro t h
    exact h
  · intro t h
    exact h

/-- C8 witness: a concrete record accepted by all three phases is accepted
again after each phase's annotation. -/
theorem c8_witness :
    phase1Accepts 0.5
        { content := ("<fim_prefix>#include <a.h>\nint foo(int a, int b) \x7b\nint c = a + b;<fim_suffix><fim_middle>return a + b;".data) } = true ∧
    phase1Accepts 0.5
        (phase1Annotate
          { content := ("<fim_prefix>#include <a.h>\nint foo(int a, int b) \x7b\nint c = a + b;<fim_suffix><fim_middle>return a + b;".data) }) = true ∧
    phase2Accepts
        { content := ("<fim_prefix>#include <a.h>\nint foo(int a, int b) \x7b\nint c = a + b;<fim_suffix><fim_middle>return a + b;".data) } = true ∧
    phase2Accepts
        (phase2Annotate
          { content := ("<fim_prefix>#include <a.h>\nint foo(int a, int b) \x7b\nint c = a + b;<fim_suffix><fim_middle>return a + b;".data) }) = true ∧
    phase3Accepts
        { content := ("<fim_prefix>#include <a.h>\nint foo(int a, int b) \x7b\nint c = a + b;<fim_suffix><fim_middle>return a + b;".data) } = true ∧
    phase3Accepts
        (phase3Annotate
          { content := ("<fim_prefix>#include <a.h>\nint foo(int a, int b) \x7b\nint c = a + b;<fim_suffix><fim_middle>return a + b;".data) }) = true := by
  have h1 : phase1Accepts 0.5
      { content := ("<fim_prefix>#include <a.h>\nint foo(int a, int b) \x7b\nint c = a + b;<fim_suffix><fim_middle>return a + b;".data) } = true := by
    decide
  have h2 : phase2Accepts
      { content := ("<fim_prefix>#include <a.h>\nint foo(int a, int b) \x7b\nint c = a + b;<fim_suffix><fim_middle>return a + b;".data) } = true := by
    decide
  have h3 : phase3Accepts
      { content := ("<fim_prefix>#include <a.h>\nint foo(int a, int b) \x7b\nint c = a + b;<fim_suffix><fim_middle>return a + b;".data) } = true := by
    decide
  exact ⟨h1, c8_phase_idempotence.1 0.5 _ h1, h2, c8_phase_idempotence.2.1 _ h2,
    h3, c8_phase_idempotence.2.2 _ h3⟩

/-! ## C10: the logical-context-flow predicate is constantly true -/

/-- `split('\n')` never yields the empty list, so the
`if not prefix_lines: return False` branch of `has_logical_context_flow` is
dead. -/
lemma pySplitNl_ne_nil (s : List Char) : pySplitNl s ≠ [] := by
  cases s with
  | nil => simp [pySplitNl]
  | cons c rest =>
    simp only [pySplitNl]
    split <;> simp

/-- C10: the logical-context-flow predicate (both the Phase-1 copy and the
Composite Scorer's copy) returns `true` on every input — each continuation
rule returns `true` and the scan falls through to the accepting default —
so the +0.2 logical-flow bonus is awarded to every record whose prefix check
passes (the Phase-1 score is then at least 0.2), and the `has_logical_flow`
metric emitted by the Composite Scorer is always `true`. -/
theorem c10_logical_flow_always_true :
    (∀ pref middle suff : List Char, hasLogicalContextFlow pref middle suff = true) ∧
    (∀ pref middle suff : List Char,
      hasLogicalContextFlowComp pref middle suff = true) ∧
    (∀ parts : FimParts,
      startsWithCompleteCodeLine (parts.pref?.getD []) = true →
        (0.2 : ℚ) ≤ calculateQualityScore parts) := by
  have hmain : ∀ pref middle suff : List Char,
      hasLogicalContextFlow pref middle suff = true := by
    intro pref middle suff
    simp only [hasLogicalContextFlow]
    have hne : (pySplitNl (pyStrip pref)).isEmpty = false := by
      rcases hsp : pySplitNl (pyStrip pref) with _ | ⟨a, r⟩
      · exact absurd hsp (pySplitNl_ne_nil _)
      · rfl
    rw [if_neg (by simp [hne])]
    split_ifs <;> rfl
  refine ⟨hmain, fun p m s => hmain p m s, ?_⟩
  intro parts h
  simp only [calculateQualityScore]
  rw [if_neg (by simp [h])]
  rw [hmain, if_pos rfl]
  apply le_min
  · split_ifs <;> decide
  · decide

/-- C10 witness: for a record whose prefix check passes (`#pragma once`),
the Phase-1 score is at least the 0.2 logical-flow bonus. -/
theorem c10_witness :
    hasLogicalContextFlow ("zzz".data) ("qqq".data) [] = true ∧
    (0.2 : ℚ) ≤ calculateQualityScore
      { pref? := some ("#pragma once".data), suff? := some [],
        middle? := some ("qqq".data) } :=
  ⟨c10_logical_flow_always_true.1 ("zzz".data) ("qqq".data) [],
    c10_logical_flow_always_true.2.2
      { pref? := some ("#pragma once".data), suff? := some [],
        middle? := some ("qqq".data) } (by decide)⟩

/-! ## C3: per-file deduplication -/

/-- The invariant of the deduplicating fold of `extract_pairs_from_file`:
emitted (prefix, middle) keys are pairwise distinct and all recorded in
`seen_pairs`. -/
def dedupInv (st : List FimPair × List (List Char × List Char)) : Prop :=
  (st.1.map (fun p => (p.pref, p.middle))).Nodup ∧
    ∀ p ∈ st.1, (p.pref, p.middle) ∈ st.2

/-- One deduplication step preserves the invariant. -/
lemma dedupStep_inv (lines : List (List Char)) (codeIdx : List Nat)
    (st : List FimPair × List (List Char × List Char)) (c : Nat × Nat × Nat)
    (h : dedupInv st) : dedupInv (dedupStep lines codeIdx st c) := by
  unfold dedupStep
  cases hc : candidateRecord lines codeIdx c.1 c.2.1 c.2.2 with
  | none => exact h
  | some p =>
    show dedupInv
      (if (p.pref, p.middle) ∈ st.2 then st
       else (st.1 ++ [p], (p.pref, p.middle) :: st.2))
    by_cases hmem : (p.pref, p.middle) ∈ st.2
    · rw [if_pos hmem]
      exact h
    · rw [if_neg hmem]
      obtain ⟨h1, h2⟩ := h
      constructor
      · rw [List.map_append]
        refine List.Nodup.append h1 (by simp) ?_
        intro a ha hb
        simp only [List.map_cons, List.map_nil, List.mem_singleton] at hb
        subst hb
        obtain ⟨q, hq, hkey⟩ := List.mem_map.mp ha
        exact hmem (hkey ▸ h2 q hq)
      · intro q hq
        rcases List.mem_append.mp hq with hq1 | hq2
        · exact List.mem_cons_of_mem _ (h2 q hq1)
        · rw [List.mem_singleton.mp hq2]
          exact List.mem_cons_self _ _

/-- The deduplicating fold preserves the invariant. -/
lemma foldl_dedup_inv (lines : List (List Char)) (codeIdx : List Nat) :
    ∀ (cs : List (Nat × Nat × Nat)) (st : List FimPair × List (List Char × List Char)),
      dedupInv st → dedupInv (cs.foldl (dedupStep lines codeIdx) st) := by
  intro cs
  induction cs with
  | nil => intro st h; exact h
  | cons c cs ih =>
    intro st h
    exact ih _ (dedupStep_inv lines codeIdx st c h)

/-- C3: within one source file no two records emitted by
`extract_pairs_from_file` (across both generation strategies) share an
identical (prefix, middle) pair; and a file containing two syntactically
identical candidate windows at different positions yields exactly one
emitted record for that (prefix, middle) pair. -/
theorem c3_per_file_dedup :
    (∀ (lines : List (List Char)) (minContext maxContext maxOutput : Nat),
      ((extractPairsFromFile lines minContext maxContext maxOutput).map
        (fun p => (p.pref, p.middle))).Nodup) ∧
    List.count (⟨("int a = 0;\nint b = 1;".data), ("int c = 2;".data)⟩ : FimPair)
      (extractPairsFromFile
        [("int a = 0;".data), ("int b = 1;".data), ("int c = 2;".data),
         ("int a = 0;".data), ("int b = 1;".data), ("int c = 2;".data)] 2 2 2) = 1 := by
  constructor
  · intro lines minContext maxContext maxOutput
    unfold extractPairsFromFile
    exact (foldl_dedup_inv lines (codeIndices lines) _ ([], [])
      ⟨List.nodup_nil, by simp⟩).1
  · decide

/-! ## C2: preprocessor balance -/

/-- A line matching the `#if`-family opener regex after stripping. -/
def isOpenerLine (l : List Char) : Bool := matchIfOpener (pyStrip l)

/-- A line whose stripped form begins `#endif`. -/
def isEndifLine (l : List Char) : Bool := ("#endif".data).isPrefixOf (pyStrip l)

/-- A line whose stripped form begins `#else`, `#elif`, or `#endif` — the
directives that reject when the opener stack is empty. -/
def isCloserOrBranch (l : List Char) : Bool :=
  ("#else".data).isPrefixOf (pyStrip l) || ("#elif".data).isPrefixOf (pyStrip l) ||
    ("#endif".data).isPrefixOf (pyStrip l)

/-- Prefix transfer: a string starting with a `#`-prefixed pattern starts
with `#`. -/
lemma hash_of_pre {p s : List Char} (hp : p.isPrefixOf s = true)
    (hh : ("#".data).isPrefixOf p = true) : ("#".data).isPrefixOf s = true := by
  rw [List.isPrefixOf_iff_prefix] at *
  exact hh.trans hp

/-- Closer/branch lines start with `#`. -/
lemma closer_hash {l : List Char} (h : isCloserOrBranch l = true) :
    ("#".data).isPrefixOf (pyStrip l) = true := by
  simp only [isCloserOrBranch, Bool.or_eq_true] at h
  rcases h with (h | h) | h
  all_goals exact hash_of_pre h (by decide)

/-- Opener lines start with `#`. -/
lemma opener_hash {s : List Char} (h : matchIfOpener s = true) :
    ("#".data).isPrefixOf s = true := by
  cases s with
  | nil => simp [matchIfOpener] at h
  | cons c t =>
    unfold matchIfOpener at h
    split at h
    · next rest heq =>
      rw [heq]
      simp [List.isPrefixOf]
    · cases h

/-- A line matching the `#if`-family opener regex cannot also begin with
`#else`, `#elif`, or `#endif` (the character after `#` and any whitespace
must be `i`). -/
lemma opener_not_branch {s : List Char} (h : matchIfOpener s = true) :
    (("#else".data).isPrefixOf s || ("#elif".data).isPrefixOf s ||
      ("#endif".data).isPrefixOf s) = false := by
  by_contra hx
  rw [Bool.not_eq_false, Bool.or_eq_true, Bool.or_eq_true] at hx
  rcases hx with (hx | hx) | hx
  · rw [List.isPrefixOf_iff_prefix] at hx
    obtain ⟨t, rfl⟩ := hx
    rw [show matchIfOpener (("#else".data) ++ t) = false from rfl] at h
    cases h
  · rw [List.isPrefixOf_iff_prefix] at hx
    obtain ⟨t, rfl⟩ := hx
    rw [show matchIfOpener (("#elif".data) ++ t) = false from rfl] at h
    cases h
  · rw [List.isPrefixOf_iff_prefix] at hx
    obtain ⟨t, rfl⟩ := hx
    rw [show matchIfOpener (("#endif".data) ++ t) = false from rfl] at h
    cases h

/-- A `#else` line is not a `#endif` line. -/
lemma else_not_endif {s : List Char} (h : ("#else".data).isPrefixOf s = true) :
    ("#endif".data).isPrefixOf s = false := by
  rw [List.isPrefixOf_iff_prefix] at h
  obtain ⟨t, rfl⟩ := h
  rfl

/-- A `#elif` line is not a `#endif` line. -/
lemma elif_not_endif {s : List Char} (h : ("#elif".data).isPrefixOf s = true) :
    ("#endif".data).isPrefixOf s = false := by
  rw [List.isPrefixOf_iff_prefix] at h
  obtain ⟨t, rfl⟩ := h
  rfl

/-- Splitting an existential over decompositions of a `cons`. -/
lemma exists_split_cons {α : Type} (x : α) (rest : List α)
    (P : List α → α → Prop) :
    (∃ pre l post, x :: rest = pre ++ l :: post ∧ P pre l) ↔
      P [] x ∨ ∃ pre l post, rest = pre ++ l :: post ∧ P (x :: pre) l := by
  constructor
  · rintro ⟨pre, l, post, heq, hp⟩
    cases pre with
    | nil =>
      simp only [List.nil_append] at heq
      injection heq with h1 h2
      subst h1
      exact Or.inl hp
    | cons y pre' =>
      simp only [List.cons_append] at heq
      injection heq with h1 h2
      subst h1
      exact Or.inr ⟨pre', l, post, h2, hp⟩
  · rintro (hp | ⟨pre, l, post, heq, hp⟩)
    · exact ⟨[], x, rest, rfl, hp⟩
    · exact ⟨x :: pre, l, post, by rw [heq, List.cons_append], hp⟩

/-- Characterization of the preprocessor scan: with initial stack `st`, the
scan reports invalid iff some line is a closer/branch directive preceded by
at most as many openers (counting the initial stack) as `#endif`s. -/
lemma hasInvalidPreAux_iff (ls : List (List Char)) : ∀ st : List Unit,
    hasInvalidPreAux st ls = true ↔
      ∃ pre l post, ls = pre ++ l :: post ∧ isCloserOrBranch l = true ∧
        pre.countP isOpenerLine + st.length ≤ pre.countP isEndifLine := by
  induction ls with
  | nil =>
    intro st
    constructor
    · intro h
      simp [hasInvalidPreAux] at h
    · rintro ⟨pre, l, post, heq, -, -⟩
      exact absurd heq (by simp)
  | cons x rest ih =>
    intro st
    simp only [hasInvalidPreAux]
    by_cases hH : ("#".data).isPrefixOf (pyStrip x) = true
    case neg =>
      rw [if_neg hH, ih st, exists_split_cons]
      have hC : isCloserOrBranch x = false := by
        by_contra hx
        rw [Bool.not_eq_false] at hx
        exact hH (closer_hash hx)
      have hop : ¬(matchIfOpener (pyStrip x) = true) := by
        intro hx
        exact hH (opener_hash hx)
      have hen : ¬(("#endif".data).isPrefixOf (pyStrip x) = true) := by
        intro hx
        exact hH (hash_of_pre hx (by decide))
      constructor
      · rintro ⟨pre, l, post, heq, hc, hcount⟩
        exact Or.inr ⟨pre, l, post, heq, hc, by
          rwa [List.countP_cons_of_neg isOpenerLine _ (by exact hop), List.countP_cons_of_neg isEndifLine _ (by exact hen)]⟩
      · rintro (⟨hc, -⟩ | ⟨pre, l, post, heq, hc, hcount⟩)
        · rw [hC] at hc
          cases hc
        · exact ⟨pre, l, post, heq, hc, by
            rwa [List.countP_cons_of_neg isOpenerLine _ (by exact hop), List.countP_cons_of_neg isEndifLine _ (by exact hen)] at hcount⟩
    case pos =>
      rw [if_pos hH]
      by_cases hO : matchIfOpener (pyStrip x) = true
      · rw [if_pos hO, ih (() :: st), exists_split_cons]
        have hC : isCloserOrBranch x = false := opener_not_branch hO
        have hen : ¬(("#endif".data).isPrefixOf (pyStrip x) = true) := by
          intro hx
          have := opener_not_branch hO
          simp [hx] at this
        constructor
        · rintro ⟨pre, l, post, heq, hc, hcount⟩
          refine Or.inr ⟨pre, l, post, heq, hc, ?_⟩
          rw [List.countP_cons_of_pos isOpenerLine _ (by exact hO), List.countP_cons_of_neg isEndifLine _ (by exact hen)]
          simp only [List.length_cons] at hcount
          omega
        · rintro (⟨hc, -⟩ | ⟨pre, l, post, heq, hc, hcount⟩)
          · rw [hC] at hc
            cases hc
          · refine ⟨pre, l, post, heq, hc, ?_⟩
            rw [List.countP_cons_of_pos isOpenerLine _ (by exact hO),
              List.countP_cons_of_neg isEndifLine _ (by exact hen)] at hcount
            simp only [List.length_cons]
            omega
      · rw [if_neg hO]
        by_cases hE : ("#else".data).isPrefixOf (pyStrip x) = true
        · rw [if_pos hE]
          by_cases hstack : st.isEmpty = true
          · rw [if_pos hstack]
            have hlen : st.length = 0 := by
              cases st
              · rfl
              · simp at hstack
            constructor
            · intro _
              exact ⟨[], x, rest, rfl, by simp [isCloserOrBranch, hE], by simp [hlen]⟩
            · intro _
              rfl
          · rw [if_neg hstack, ih st, exists_split_cons]
            have hnz : st.length ≠ 0 := by
              cases st
              · simp at hstack
              · simp
            have hen : ¬(("#endif".data).isPrefixOf (pyStrip x) = true) := by
              intro hx
              rw [else_not_endif hE] at hx
              cases hx
            constructor
            · rintro ⟨pre, l, post, heq, hc, hcount⟩
              exact Or.inr ⟨pre, l, post, heq, hc, by
                rwa [List.countP_cons_of_neg isOpenerLine _ (by exact hO), List.countP_cons_of_neg isEndifLine _ (by exact hen)]⟩
            · rintro (⟨hc, hcount⟩ | ⟨pre, l, post, heq, hc, hcount⟩)
              · simp only [List.countP_nil] at hcount
                omega
              · exact ⟨pre, l, post, heq, hc, by
                  rwa [List.countP_cons_of_neg isOpenerLine _ (by exact hO), List.countP_cons_of_neg isEndifLine _ (by exact hen)] at hcount⟩
        · rw [if_neg hE]
          by_cases hE2 : ("#elif".data).isPrefixOf (pyStrip x) = true
          · rw [if_pos hE2]
            by_cases hstack : st.isEmpty = true
            · rw [if_pos hstack]
              have hlen : st.length = 0 := by
                cases st
                · rfl
                · simp at hstack
              constructor
              · intro _
                exact ⟨[], x, rest, rfl, by simp [isCloserOrBranch, hE2], by simp [hlen]⟩
              · intro _
                rfl
            · rw [if_neg hstack, ih st, exists_split_cons]
              have hnz : st.length ≠ 0 := by
                cases st
                · simp at hstack
                · simp
              have hen : ¬(("#endif".data).isPrefixOf (pyStrip x) = true) := by
                intro hx
                rw [elif_not_endif hE2] at hx
                cases hx
              constructor
              · rintro ⟨pre, l, post, heq, hc, hcount⟩
                exact Or.inr ⟨pre, l, post, heq, hc, by
                  rwa [List.countP_cons_of_neg isOpenerLine _ (by exact hO), List.countP_cons_of_neg isEndifLine _ (by exact hen)]⟩
              · rintro (⟨hc, hcount⟩ | ⟨pre, l, post, heq, hc, hcount⟩)
                · simp only [List.countP_nil] at hcount
                  omega
                · exact ⟨pre, l, post, heq, hc, by
                    rwa [List.countP_cons_of_neg isOpenerLine _ (by exact hO),
                      List.countP_cons_of_neg isEndifLine _ (by exact hen)] at hcount⟩
          · rw [if_neg hE2]
            by_cases hEnd : ("#endif".data).isPrefixOf (pyStrip x) = true
            · rw [if_pos hEnd]
              by_cases hstack : st.isEmpty = true
              · rw [if_pos hstack]
                have hlen : st.length = 0 := by
                  cases st
                  · rfl
                  · simp at hstack
                constructor
                · intro _
                  exact ⟨[], x, rest, rfl, by simp [isCloserOrBranch, hEnd],
                    by simp [hlen]⟩
                · intro _
                  rfl
              · rw [if_neg hstack]
                obtain ⟨u, st', rfl⟩ : ∃ u st', st = u :: st' := by
                  cases st
                  · simp at hstack
                  · exact ⟨_, _, rfl⟩
                simp only [List.tail_cons]
                rw [ih st', exists_split_cons]
                constructor
                · rintro ⟨pre, l, post, heq, hc, hcount⟩
                  refine Or.inr ⟨pre, l, post, heq, hc, ?_⟩
                  rw [List.countP_cons_of_neg isOpenerLine _ (by exact hO),
                    List.countP_cons_of_pos isEndifLine _ (by exact hEnd)]
                  simp only [List.length_cons]
                  omega
                · rintro (⟨hc, hcount⟩ | ⟨pre, l, post, heq, hc, hcount⟩)
                  · simp only [List.countP_nil, List.length_cons] at hcount
                    omega
                  · refine ⟨pre, l, post, heq, hc, ?_⟩
                    rw [List.countP_cons_of_neg isOpenerLine _ (by exact hO),
                      List.countP_cons_of_pos isEndifLine _ (by exact hEnd)] at hcount
                    simp only [List.length_cons] at hcount ⊢
                    omega
            · rw [if_neg hEnd, ih st, exists_split_cons]
              have hC : isCloserOrBranch x = false := by
                simp only [isCloserOrBranch, Bool.or_eq_false_iff]
                exact ⟨⟨by rw [← Bool.not_eq_true]; exact hE, by rw [← Bool.not_eq_true]; exact hE2⟩,
                  by rw [← Bool.not_eq_true]; exact hEnd⟩
              constructor
              · rintro ⟨pre, l, post, heq, hc, hcount⟩
                exact Or.inr ⟨pre, l, post, heq, hc, by
                  rwa [List.countP_cons_of_neg isOpenerLine _ (by exact hO), List.countP_cons_of_neg isEndifLine _ (by exact hEnd)]⟩
              · rintro (⟨hc, -⟩ | ⟨pre, l, post, heq, hc, hcount⟩)
                · rw [hC] at hc
                  cases hc
                · exact ⟨pre, l, post, heq, hc, by
                    rwa [List.countP_cons_of_neg isOpenerLine _ (by exact hO),
                      List.countP_cons_of_neg isEndifLine _ (by exact hEnd)] at hcount⟩

/-- C2: the Preprocessor Balance Checker reports invalid iff, scanning
top-to-bottom (pushing on `#if`/`#ifdef`/`#ifndef`, popping on `#endif`),
some `#else`/`#elif`/`#endif` directive is met while the opener stack is
empty — equivalently, some closer/branch line is preceded by at most as many
opener lines as `#endif` lines; unmatched openers left on the stack at end
of scan are accepted (no end-of-scan condition appears in the
characterization).  Moreover a window containing `#else` with no preceding
opener in the window is always invalid, and the Pair Extractor rejects any
candidate whose cleaned context window is invalid. -/
theorem c2_preprocessor_balance :
    (∀ ls : List (List Char),
      hasInvalidPreprocessorStructure ls = true ↔
        ∃ pre l post, ls = pre ++ l :: post ∧ isCloserOrBranch l = true ∧
          pre.countP isOpenerLine ≤ pre.countP isEndifLine) ∧
    (∀ (ls pre : List (List Char)) (l : List Char) (post : List (List Char)),
      ls = pre ++ l :: post → ("#else".data).isPrefixOf (pyStrip l) = true →
      (∀ x ∈ pre, isOpenerLine x = false) →
      hasInvalidPreprocessorStructure ls = true) ∧
    (∀ (lines : List (List Char)) (codeIdx : List Nat) (idx cl ol : Nat),
      hasInvalidPreprocessorStructure
          (contextWindow lines (codeIdx.getD idx 0) cl) = true →
      candidateRecord lines codeIdx idx cl ol = none) := by
  have hchar : ∀ ls : List (List Char),
      hasInvalidPreprocessorStructure ls = true ↔
        ∃ pre l post, ls = pre ++ l :: post ∧ isCloserOrBranch l = true ∧
          pre.countP isOpenerLine ≤ pre.countP isEndifLine := by
    intro ls
    rw [show hasInvalidPreprocessorStructure ls = hasInvalidPreAux [] ls from rfl,
      hasInvalidPreAux_iff ls []]
    simp only [List.length_nil, Nat.add_zero]
  refine ⟨hchar, ?_, ?_⟩
  · intro ls pre l post heq hl hop
    rw [hchar ls]
    refine ⟨pre, l, post, heq, by simp [isCloserOrBranch, hl], ?_⟩
    have : pre.countP isOpenerLine = 0 := by
      rw [List.countP_eq_zero]
      intro x hx
      simp [hop x hx]
    omega
  · intro lines codeIdx idx cl ol h
    simp only [candidateRecord]
    by_cases h1 : codeIdx.getD idx 0 + 1 < cl
    · rw [if_pos h1]
    · rw [if_neg h1, if_pos h]

/-- C2 witness: a lone `#else` window is invalid, and a candidate whose
cleaned context window is that `#else` line is rejected by the extractor. -/
theorem c2_witness :
    hasInvalidPreprocessorStructure [("#else".data)] = true ∧
    candidateRecord [("#else".data), ("int a = 0;".data), ("int b = 1;".data)]
      (codeIndices [("#else".data), ("int a = 0;".data), ("int b = 1;".data)])
      0 1 1 = none := by
  have h1 : hasInvalidPreprocessorStructure [("#else".data)] = true :=
    c2_preprocessor_balance.2.1 [("#else".data)] [] ("#else".data) [] rfl
      (by decide) (by intro x hx; simp at hx)
  refine ⟨h1, c2_preprocessor_balance.2.2 _ _ 0 1 1 ?_⟩
  decide

/-! ## C9: FIM middle extraction across the stages -/

/-- C9 counterexample: the claim says every stage recovers the middle as
everything after `<fim_middle>` to end-of-content, unchanged; but the
Phase-2/Phase-3 extractor stops at the first `<` after the marker and strips
whitespace, so for the middle `" a<b "` it returns `"a"`, while the
Phase-1/Composite extractor returns the full `" a<b "`. -/
theorem c9_counterexample :
    extractFimMiddle ("<fim_prefix>p<fim_suffix><fim_middle> a<b ".data) = ("a".data) ∧
    ("a".data) ≠ (" a<b ".data) ∧
    (extractFimParts ("<fim_prefix>p<fim_suffix><fim_middle> a<b ".data)).middle? =
      some (" a<b ".data) := by
  refine ⟨by decide, by decide, by decide⟩

/-- Scanning for the first occurrence of `pat`: when no occurrence starts
inside `front`, the scan finds the explicit occurrence and returns the
remainder `m`. -/
lemma afterFirst_append {pat : List Char} (front m : List Char) (hpat : pat ≠ [])
    (h : ∀ k, k < front.length →
      (pat.isPrefixOf ((front ++ pat ++ m).drop k)) = false) :
    afterFirst pat (front ++ pat ++ m) = some m := by
  induction front with
  | nil =>
    simp only [List.nil_append]
    cases hp : pat with
    | nil => exact absurd hp hpat
    | cons a as =>
      subst hp
      simp only [List.cons_append, afterFirst]
      rw [if_pos (by rw [List.isPrefixOf_iff_prefix]; exact ⟨m, by simp⟩)]
      congr 1
      rw [List.length_cons, List.drop_succ_cons]
      exact List.drop_left as m
  | cons c fr ih =>
    simp only [List.cons_append, afterFirst]
    rw [if_neg ?_]
    · exact ih (fun k hk => by
        have := h (k + 1) (by simpa using Nat.succ_lt_succ hk)
        simpa [List.drop_succ_cons] using this)
    · have h0 := h 0 (by simp)
      simp only [List.drop_zero, List.cons_append] at h0
      simp only [List.append_eq]
      simp only [h0]
      simp

/-- `takeWhile` stops inside the left part of an append when the left part
contains a failing element. -/
lemma takeWhile_append_left {p : Char → Bool} :
    ∀ l l₂ : List Char, (∃ x ∈ l, p x = false) →
      (l ++ l₂).takeWhile p = l.takeWhile p := by
  intro l
  induction l with
  | nil =>
    rintro l₂ ⟨x, hx, -⟩
    exact absurd hx (List.not_mem_nil x)
  | cons a l' ih =>
    intro l₂ h
    by_cases hpa : p a = true
    · have h' : ∃ x ∈ l', p x = false := by
        rcases h with ⟨x, hx, hpx⟩
        rcases List.mem_cons.mp hx with rfl | hx'
        · rw [hpa] at hpx
          cases hpx
        · exact ⟨x, hx', hpx⟩
      rw [List.cons_append, List.takeWhile_cons, List.takeWhile_cons, if_pos hpa,
        if_pos hpa, ih l₂ h']
    · rw [List.cons_append, List.takeWhile_cons, List.takeWhile_cons, if_neg hpa,
        if_neg hpa]

/-- C9 (amended): the Phase-1/Composite extractor `extract_fim_parts`
recovers as the middle everything after the first `<fim_middle>` marker,
except that a single trailing newline escapes the `$`-terminated lazy group;
the Phase-2 extractor `extract_fim_middle` (and the Phase-3
`extract_fim_components`, whose middle branch is the same code) instead
truncates that middle at the first `<` character and strips surrounding
whitespace. -/
theorem c9_amended :
    (∀ front m : List Char,
      (∀ k, k < front.length →
        (("<fim_middle>".data).isPrefixOf
          ((front ++ ("<fim_middle>".data) ++ m).drop k)) = false) →
      m.getLast? ≠ some '\n' →
      (extractFimParts (front ++ ("<fim_middle>".data) ++ m)).middle? = some m) ∧
    (∀ content P : List Char,
      (extractFimParts content).middle? = some P →
      extractFimMiddle content = pyStrip (P.takeWhile (fun c => c ≠ '<'))) ∧
    (∀ content : List Char,
      (extractFimComponents content).2 = extractFimMiddle content) := by
  refine ⟨?_, ?_, fun content => rfl⟩
  · intro front m hocc hnl
    have ha := @afterFirst_append ("<fim_middle>".data) front m (by decide) hocc
    simp only [extractFimParts]
    rw [ha]
    have hb : (m.getLast? == some '\n') = false := by
      rw [beq_eq_false_iff_ne]
      exact hnl
    simp [hb]
    intro hx
    exact absurd hx hnl
  · intro content P hP
    simp only [extractFimParts] at hP
    rcases ha : afterFirst ("<fim_middle>".data) content with _ | r
    · rw [ha] at hP
      cases hP
    · rw [ha] at hP
      simp only [Option.map_some'] at hP
      have hmid : extractFimMiddle content =
          pyStrip (if r.any (· = '<') then r.takeWhile (fun c => c ≠ '<')
            else if r.getLast? == some '\n' then r.dropLast else r) := by
        simp only [extractFimMiddle]
        rw [ha]
      rw [hmid]
      by_cases hlt : r.any (· = '<') = true
      · rw [if_pos hlt]
        by_cases hnl : (r.getLast? == some '\n') = true
        · rw [if_pos hnl] at hP
          have hP' : r.dropLast = P := Option.some_inj.mp hP
          have hmem : '\n' ∈ r.getLast? := by
            simp only [beq_iff_eq] at hnl
            rw [hnl]
            rfl
          have hr : r.dropLast ++ ['\n'] = r := List.dropLast_append_getLast? '\n' hmem
          have hlt' : ∃ x ∈ r.dropLast, (fun c => decide (c ≠ '<')) x = false := by
            rcases List.any_eq_true.mp hlt with ⟨x, hx, hxx⟩
            have hx' : x = '<' := by simpa using hxx
            subst hx'
            rw [← hr] at hx
            rcases List.mem_append.mp hx with h' | h'
            · exact ⟨'<', h', by simp⟩
            · simp at h'
          rw [← hP']
          conv_lhs => rw [← hr]
          rw [takeWhile_append_left _ _ hlt']
        · rw [if_neg hnl] at hP
          rw [Option.some_inj.mp hP]
      · rw [if_neg hlt]
        have hP' : (if (r.getLast? == some '\n') = true then r.dropLast else r) = P :=
          Option.some_inj.mp hP
        rw [hP']
        have hall : ∀ x ∈ P, (fun c => decide (c ≠ '<')) x = true := by
          intro x hx
          have hxr : x ∈ r := by
            rw [← hP'] at hx
            by_cases hnl : (r.getLast? == some '\n') = true
            · rw [if_pos hnl] at hx
              exact (List.dropLast_sublist r).subset hx
            · rw [if_neg hnl] at hx
              exact hx
          have : ¬(x = '<') := by
            intro hxe
            subst hxe
            exact hlt (List.any_eq_true.mpr ⟨'<', hxr, by simp⟩)
          simpa using this
        rw [List.takeWhile_eq_self_iff.mpr (by
          intro x hx
          have := hall x hx
          simpa using this)]

/-- C9 witness: both amended statements at concrete contents. -/
theorem c9_witness :
    (extractFimParts (("<fim_prefix>p<fim_suffix>".data) ++ ("<fim_middle>".data) ++
        ("xy".data))).middle? = some ("xy".data) ∧
    extractFimMiddle ("<fim_prefix>p<fim_suffix><fim_middle> a<b ".data) =
      pyStrip (((" a<b ".data)).takeWhile (fun c => c ≠ '<')) :=
  ⟨c9_amended.1 ("<fim_prefix>p<fim_suffix>".data) ("xy".data) (by decide) (by decide),
    c9_amended.2.1 ("<fim_prefix>p<fim_suffix><fim_middle> a<b ".data) (" a<b ".data)
      (by decide)⟩

/-! ## C4: the Phase-1 prefix check, indentation and accepted openers -/

/-- The opener shapes named by the spec, as prefixes of the first non-blank
stripped line; the `#include` case carries the header-shape side condition
of filter_quality_fim_tasks.py line 322. -/
def acceptStart (fl : List Char) : Prop :=
  (∃ t, fl = ("#pragma".data) ++ t) ∨
  (∃ t, fl = ("#include".data) ++ t ∧
    ((".h\"".data).isSuffixOf fl || (".hpp\"".data).isSuffixOf fl ||
      (">".data).isSuffixOf fl || containsSub ("\"".data) fl) = true) ∨
  (∃ t, fl = ("namespace ".data) ++ t) ∨
  (∃ t, fl = ("using ".data) ++ t) ∨
  (∃ t, fl = ("class ".data) ++ t) ∨
  (∃ t, fl = ("struct ".data) ++ t) ∨
  (∃ t, fl = ("enum ".data) ++ t)

/-- Unfolding of `starts_with_complete_code_line` once the first non-blank
stripped line is known. -/
lemma swccl_unfold (pref fl : List Char) (hne : (pyStrip pref).isEmpty = false)
    (hf : firstNonBlankStripped (pySplitNl pref) = some fl) :
    startsWithCompleteCodeLine pref =
      if 4 < leadingWsCount ((pySplitNl pref).headD []) then false
      else swcclCore fl := by
  simp only [startsWithCompleteCodeLine]
  rw [if_neg (by simp [hne]), hf]

/-- Unfolding of the Composite Scorer's `starts_with_complete_code_line` once
the first non-blank stripped line is known. -/
lemma swcclComp_unfold (pref fl : List Char) (hne : (pyStrip pref).isEmpty = false)
    (hf : firstNonBlankStripped (pySplitNl pref) = some fl) :
    startsWithCompleteCodeLineComp pref =
      if 4 < leadingWsCount ((pySplitNl pref).headD []) then false
      else swcclCompCore fl := by
  simp only [startsWithCompleteCodeLineComp]
  rw [if_neg (by simp [hne]), hf]

/-- A first line starting `#pragma` passes the Phase-1 pattern chain. -/
lemma swccl_pragma (t : List Char) : swcclCore (("#pragma".data) ++ t) = true := by
  have e1 : matchIncompleteControl (("#pragma".data) ++ t) = false := rfl
  have e2 : pyFullMatchStar punctClsA (("#pragma".data) ++ t) = false :=
    pyFullMatchStar_false_head _ (by decide) (by decide)
  have e3 : pyFullMatchPlus isWordChar (("#pragma".data) ++ t) = false :=
    pyFullMatchPlus_false_head _ (by decide) (by decide)
  have e4 : (("#include".data).isPrefixOf (("#pragma".data) ++ t)) = false := rfl
  have e5 : (("#pragma".data).isPrefixOf (("#pragma".data) ++ t)) = true :=
    List.isPrefixOf_iff_prefix.mpr ⟨t, rfl⟩
  simp only [swcclCore, e1, e2, e3, e4, e5]
  simp

/-- A first line starting `#include` and shaped like a header include passes
the Phase-1 pattern chain. -/
lemma swccl_include (t : List Char)
    (hc : ((".h\"".data).isSuffixOf (("#include".data) ++ t) ||
        (".hpp\"".data).isSuffixOf (("#include".data) ++ t) ||
        (">".data).isSuffixOf (("#include".data) ++ t) ||
        containsSub ("\"".data) (("#include".data) ++ t)) = true) :
    swcclCore (("#include".data) ++ t) = true := by
  have e1 : matchIncompleteControl (("#include".data) ++ t) = false := rfl
  have e2 : pyFullMatchStar punctClsA (("#include".data) ++ t) = false :=
    pyFullMatchStar_false_head _ (by decide) (by decide)
  have e3 : pyFullMatchPlus isWordChar (("#include".data) ++ t) = false :=
    pyFullMatchPlus_false_head _ (by decide) (by decide)
  have e4 : (("#include".data).isPrefixOf (("#include".data) ++ t)) = true :=
    List.isPrefixOf_iff_prefix.mpr ⟨t, rfl⟩
  simp only [swcclCore, e1, e2, e3, e4, hc]
  simp

/-- A first line starting `namespace ` passes the Phase-1 pattern chain. -/
lemma swccl_names (t : List Char) : swcclCore (("namespace ".data) ++ t) = true := by
  have e1 : matchIncompleteControl (("namespace ".data) ++ t) = false := rfl
  have e2 : pyFullMatchStar punctClsA (("namespace ".data) ++ t) = false :=
    pyFullMatchStar_false_head _ (by decide) (by decide)
  have e3 : pyFullMatchPlus isWordChar (("namespace ".data) ++ t) = false :=
    @pyFullMatchPlus_false_append isWordChar ("namespace ".data) t (by decide) (by decide)
  have e4 : (("#include".data).isPrefixOf (("namespace ".data) ++ t)) = false := rfl
  have e5 : (("#pragma".data).isPrefixOf (("namespace ".data) ++ t)) = false := rfl
  have e6 : (("#ifndef".data).isPrefixOf (("namespace ".data) ++ t)) = false := rfl
  have e7 : (("#ifdef".data).isPrefixOf (("namespace ".data) ++ t)) = false := rfl
  have e8 : (("#define".data).isPrefixOf (("namespace ".data) ++ t)) = false := rfl
  have e9 : (("namespace ".data).isPrefixOf (("namespace ".data) ++ t)) = true :=
    List.isPrefixOf_iff_prefix.mpr ⟨t, rfl⟩
  simp only [swcclCore, e1, e2, e3, e4, e5, e6, e7, e8, e9]
  simp

/-- A first line starting `using ` passes the Phase-1 pattern chain. -/
lemma swccl_usingkw (t : List Char) : swcclCore (("using ".data) ++ t) = true := by
  have e1 : matchIncompleteControl (("using ".data) ++ t) = false := rfl
  have e2 : pyFullMatchStar punctClsA (("using ".data) ++ t) = false :=
    pyFullMatchStar_false_head _ (by decide) (by decide)
  have e3 : pyFullMatchPlus isWordChar (("using ".data) ++ t) = false :=
    @pyFullMatchPlus_false_append isWordChar ("using ".data) t (by decide) (by decide)
  have e4 : (("#include".data).isPrefixOf (("using ".data) ++ t)) = false := rfl
  have e5 : (("#pragma".data).isPrefixOf (("using ".data) ++ t)) = false := rfl
  have e6 : (("#ifndef".data).isPrefixOf (("using ".data) ++ t)) = false := rfl
  have e7 : (("#ifdef".data).isPrefixOf (("using ".data) ++ t)) = false := rfl
  have e8 : (("#define".data).isPrefixOf (("using ".data) ++ t)) = false := rfl
  have e9 : (("namespace ".data).isPrefixOf (("using ".data) ++ t)) = false := rfl
  have e10 : (("using ".data).isPrefixOf (("using ".data) ++ t)) = true :=
    List.isPrefixOf_iff_prefix.mpr ⟨t, rfl⟩
  simp only [swcclCore, e1, e2, e3, e4, e5, e6, e7, e8, e9, e10]
  simp

/-- A first line starting `class ` passes the Phase-1 pattern chain. -/
lemma swccl_classkw (t : List Char) : swcclCore (("class ".data) ++ t) = true := by
  have e1 : matchIncompleteControl (("class ".data) ++ t) = false := rfl
  have e2 : pyFullMatchStar punctClsA (("class ".data) ++ t) = false :=
    pyFullMatchStar_false_head _ (by decide) (by decide)
  have e3 : pyFullMatchPlus isWordChar (("class ".data) ++ t) = false :=
    @pyFullMatchPlus_false_append isWordChar ("class ".data) t (by decide) (by decide)
  have e4 : (("#include".data).isPrefixOf (("class ".data) ++ t)) = false := rfl
  have e5 : (("#pragma".data).isPrefixOf (("class ".data) ++ t)) = false := rfl
  have e6 : (("#ifndef".data).isPrefixOf (("class ".data) ++ t)) = false := rfl
  have e7 : (("#ifdef".data).isPrefixOf (("class ".data) ++ t)) = false := rfl
  have e8 : (("#define".data).isPrefixOf (("class ".data) ++ t)) = false := rfl
  have e9 : (("namespace ".data).isPrefixOf (("class ".data) ++ t)) = false := rfl
  have e10 : (("using ".data).isPrefixOf (("class ".data) ++ t)) = false := rfl
  have e11 : (("class ".data).isPrefixOf (("class ".data) ++ t)) = true :=
    List.isPrefixOf_iff_prefix.mpr ⟨t, rfl⟩
  simp only [swcclCore, e1, e2, e3, e4, e5, e6, e7, e8, e9, e10, e11]
  simp

/-- A first line starting `struct ` passes the Phase-1 pattern chain. -/
lemma swccl_structkw (t : List Char) : swcclCore (("struct ".data) ++ t) = true := by
  have e1 : matchIncompleteControl (("struct ".data) ++ t) = false := rfl
  have e2 : pyFullMatchStar punctClsA (("struct ".data) ++ t) = false :=
    pyFullMatchStar_false_head _ (by decide) (by decide)
  have e3 : pyFullMatchPlus isWordChar (("struct ".data) ++ t) = false :=
    @pyFullMatchPlus_false_append isWordChar ("struct ".data) t (by decide) (by decide)
  have e4 : (("#include".data).isPrefixOf (("struct ".data) ++ t)) = false := rfl
  have e5 : (("#pragma".data).isPrefixOf (("struct ".data) ++ t)) = false := rfl
  have e6 : (("#ifndef".data).isPrefixOf (("struct ".data) ++ t)) = false := rfl
  have e7 : (("#ifdef".data).isPrefixOf (("struct ".data) ++ t)) = false := rfl
  have e8 : (("#define".data).isPrefixOf (("struct ".data) ++ t)) = false := rfl
  have e9 : (("namespace ".data).isPrefixOf (("struct ".data) ++ t)) = false := rfl
  have e10 : (("using ".data).isPrefixOf (("struct ".data) ++ t)) = false := rfl
  have e11 : (("class ".data).isPrefixOf (("struct ".data) ++ t)) = false := rfl
  have e12 : (("struct ".data).isPrefixOf (("struct ".data) ++ t)) = true :=
    List.isPrefixOf_iff_prefix.mpr ⟨t, rfl⟩
  simp only [swcclCore, e1, e2, e3, e4, e5, e6, e7, e8, e9, e10, e11, e12]
  simp

/-- A first line starting `enum ` passes the Phase-1 pattern chain. -/
lemma swccl_enumkw (t : List Char) : swcclCore (("enum ".data) ++ t) = true := by
  have e1 : matchIncompleteControl (("enum ".data) ++ t) = false := rfl
  have e2 : pyFullMatchStar punctClsA (("enum ".data) ++ t) = false :=
    pyFullMatchStar_false_head _ (by decide) (by decide)
  have e3 : pyFullMatchPlus isWordChar (("enum ".data) ++ t) = false :=
    @pyFullMatchPlus_false_append isWordChar ("enum ".data) t (by decide) (by decide)
  have e4 : (("#include".data).isPrefixOf (("enum ".data) ++ t)) = false := rfl
  have e5 : (("#pragma".data).isPrefixOf (("enum ".data) ++ t)) = false := rfl
  have e6 : (("#ifndef".data).isPrefixOf (("enum ".data) ++ t)) = false := rfl
  have e7 : (("#ifdef".data).isPrefixOf (("enum ".data) ++ t)) = false := rfl
  have e8 : (("#define".data).isPrefixOf (("enum ".data) ++ t)) = false := rfl
  have e9 : (("namespace ".data).isPrefixOf (("enum ".data) ++ t)) = false := rfl
  have e10 : (("using ".data).isPrefixOf (("enum ".data) ++ t)) = false := rfl
  have e11 : (("class ".data).isPrefixOf (("enum ".data) ++ t)) = false := rfl
  have e12 : (("struct ".data).isPrefixOf (("enum ".data) ++ t)) = false := rfl
  have e13 : (("enum ".data).isPrefixOf (("enum ".data) ++ t)) = true :=
    List.isPrefixOf_iff_prefix.mpr ⟨t, rfl⟩
  simp only [swcclCore, e1, e2, e3, e4, e5, e6, e7, e8, e9, e10, e11, e12, e13]
  simp

/-- A first line starting `#pragma` passes the Composite Scorer's chain. -/
lemma swcclComp_pragma (t : List Char) :
    swcclCompCore (("#pragma".data) ++ t) = true := by
  have e : (("#pragma".data).isPrefixOf (("#pragma".data) ++ t)) = true :=
    List.isPrefixOf_iff_prefix.mpr ⟨t, rfl⟩
  simp only [swcclCompCore, e]
  simp

/-- A first line starting `#include` passes the Composite Scorer's chain
(no header-shape condition there). -/
lemma swcclComp_include (t : List Char) :
    swcclCompCore (("#include".data) ++ t) = true := by
  have e : (("#include".data).isPrefixOf (("#include".data) ++ t)) = true :=
    List.isPrefixOf_iff_prefix.mpr ⟨t, rfl⟩
  simp only [swcclCompCore, e]
  simp

/-- A first line starting `namespace ` passes the Composite Scorer's chain. -/
lemma swcclComp_names (t : List Char) :
    swcclCompCore (("namespace ".data) ++ t) = true := by
  have h1 : (("namespace".data).isPrefixOf (("namespace ".data) ++ t)) = true :=
    List.isPrefixOf_iff_prefix.mpr ⟨' ' :: t, rfl⟩
  have h2 : (("namespace ".data) ++ t).drop (("namespace".data).length) = ' ' :: t := rfl
  have e : litWsAt ("namespace".data) (("namespace ".data) ++ t) = true := by
    simp only [litWsAt, h1, h2]
    decide
  simp only [swcclCompCore, e]
  simp

/-- A first line starting `using ` passes the Composite Scorer's chain. -/
lemma swcclComp_usingkw (t : List Char) :
    swcclCompCore (("using ".data) ++ t) = true := by
  have h1 : (("using".data).isPrefixOf (("using ".data) ++ t)) = true :=
    List.isPrefixOf_iff_prefix.mpr ⟨' ' :: t, rfl⟩
  have h2 : (("using ".data) ++ t).drop (("using".data).length) = ' ' :: t := rfl
  have e : litWsAt ("using".data) (("using ".data) ++ t) = true := by
    simp only [litWsAt, h1, h2]
    decide
  simp only [swcclCompCore, e]
  simp

/-- A first line starting `class ` passes the Composite Scorer's chain. -/
lemma swcclComp_classkw (t : List Char) :
    swcclCompCore (("class ".data) ++ t) = true := by
  have h1 : (("class".data).isPrefixOf (("class ".data) ++ t)) = true :=
    List.isPrefixOf_iff_prefix.mpr ⟨' ' :: t, rfl⟩
  have h2 : (("class ".data) ++ t).drop (("class".data).length) = ' ' :: t := rfl
  have e : litWsAt ("class".data) (("class ".data) ++ t) = true := by
    simp only [litWsAt, h1, h2]
    decide
  simp only [swcclCompCore, e]
  simp

/-- A first line starting `struct ` passes the Composite Scorer's chain. -/
lemma swcclComp_structkw (t : List Char) :
    swcclCompCore (("struct ".data) ++ t) = true := by
  have h1 : (("struct".data).isPrefixOf (("struct ".data) ++ t)) = true :=
    List.isPrefixOf_iff_prefix.mpr ⟨' ' :: t, rfl⟩
  have h2 : (("struct ".data) ++ t).drop (("struct".data).length) = ' ' :: t := rfl
  have e : litWsAt ("struct".data) (("struct ".data) ++ t) = true := by
    simp only [litWsAt, h1, h2]
    decide
  simp only [swcclCompCore, e]
  simp

/-- A first line starting `enum ` passes the Composite Scorer's chain. -/
lemma swcclComp_enumkw (t : List Char) :
    swcclCompCore (("enum ".data) ++ t) = true := by
  have h1 : (("enum".data).isPrefixOf (("enum ".data) ++ t)) = true :=
    List.isPrefixOf_iff_prefix.mpr ⟨' ' :: t, rfl⟩
  have h2 : (("enum ".data) ++ t).drop (("enum".data).length) = ' ' :: t := rfl
  have e : litWsAt ("enum".data) (("enum ".data) ++ t) = true := by
    simp only [litWsAt, h1, h2]
    decide
  simp only [swcclCompCore, e]
  simp

/-- C4 counterexample: the claim keys the indentation rejection to the first
NON-BLANK line, but the code reads `lines[0]`, the raw first line. A prefix
whose whitespace-only first line is indented 6 columns is rejected even
though its first non-blank line is a column-0 `#include`; conversely an
empty first line lets a 6-column-indented `namespace` line pass. Both
Phase 1 and the Composite Scorer behave this way. -/
theorem c4_counterexample :
    startsWithCompleteCodeLine ("      \n#include <a.h>".data) = false ∧
      startsWithCompleteCodeLine ("\n      namespace foo \x7b".data) = true ∧
      startsWithCompleteCodeLineComp ("      \n#include <a.h>".data) = false ∧
      startsWithCompleteCodeLineComp ("\n      namespace foo \x7b".data) = true := by
  refine ⟨?_, ?_, ?_, ?_⟩ <;> decide

/-- C4 (amended): the prefix check reads the indentation of the prefix's
first RAW line (`lines[0]`), not of the first non-blank line. (a) When the
raw first line has more than 4 leading whitespace characters the record is
rejected by both Phase 1 and the Composite Scorer, whatever follows.
(b) When the raw first line has at most 4 leading whitespace characters and
the first non-blank stripped line opens with `#pragma`, a header-shaped
`#include`, or a `namespace `/`using `/`class `/`struct `/`enum ` opener,
both checks accept. -/
theorem c4_amended :
    (∀ pref : List Char, 4 < leadingWsCount ((pySplitNl pref).headD []) →
      startsWithCompleteCodeLine pref = false ∧
        startsWithCompleteCodeLineComp pref = false) ∧
    (∀ pref fl : List Char, (pyStrip pref).isEmpty = false →
      leadingWsCount ((pySplitNl pref).headD []) ≤ 4 →
      firstNonBlankStripped (pySplitNl pref) = some fl →
      acceptStart fl →
      startsWithCompleteCodeLine pref = true ∧
        startsWithCompleteCodeLineComp pref = true) := by
  constructor
  · intro pref h
    by_cases hs : (pyStrip pref).isEmpty = true
    · constructor
      · simp [startsWithCompleteCodeLine, hs]
      · simp [startsWithCompleteCodeLineComp, hs]
    · have hne : (pyStrip pref).isEmpty = false := by simpa using hs
      rcases hf : firstNonBlankStripped (pySplitNl pref) with _ | fl
      · constructor
        · simp [startsWithCompleteCodeLine, hs, hf]
        · simp [startsWithCompleteCodeLineComp, hs, hf]
      · rw [swccl_unfold pref fl hne hf, swcclComp_unfold pref fl hne hf]
        rw [if_pos h, if_pos h]
        exact ⟨rfl, rfl⟩
  · intro pref fl hne hlead hf hacc
    have hnot : ¬(4 < leadingWsCount ((pySplitNl pref).headD [])) := by omega
    rw [swccl_unfold pref fl hne hf, swcclComp_unfold pref fl hne hf]
    rw [if_neg hnot, if_neg hnot]
    constructor
    · rcases hacc with ⟨t, rfl⟩ | ⟨t, rfl, hc⟩ | ⟨t, rfl⟩ | ⟨t, rfl⟩ | ⟨t, rfl⟩ |
        ⟨t, rfl⟩ | ⟨t, rfl⟩
      · exact swccl_pragma t
      · exact swccl_include t hc
      · exact swccl_names t
      · exact swccl_usingkw t
      · exact swccl_classkw t
      · exact swccl_structkw t
      · exact swccl_enumkw t
    · rcases hacc with ⟨t, rfl⟩ | ⟨t, rfl, hc⟩ | ⟨t, rfl⟩ | ⟨t, rfl⟩ | ⟨t, rfl⟩ |
        ⟨t, rfl⟩ | ⟨t, rfl⟩
      · exact swcclComp_pragma t
      · exact swcclComp_include t
      · exact swcclComp_names t
      · exact swcclComp_usingkw t
      · exact swcclComp_classkw t
      · exact swcclComp_structkw t
      · exact swcclComp_enumkw t

/-- C4 witness: both amended statements at concrete prefixes. -/
theorem c4_witness :
    (startsWithCompleteCodeLine ("     x".data) = false ∧
      startsWithCompleteCodeLineComp ("     x".data) = false) ∧
    (startsWithCompleteCodeLine ("#pragma once".data) = true ∧
      startsWithCompleteCodeLineComp ("#pragma once".data) = true) :=
  ⟨c4_amended.1 ("     x".data) (by decide),
    c4_amended.2 ("#pragma once".data) ("#pragma once".data) (by decide) (by decide)
      (by decide) (Or.inl ⟨(" once".data), by decide⟩)⟩

end Pipeline
